import Mathlib

/-!
Verification development for the AMDGPU/KFD checkpoint-restore plugin
(`amdgpu_plugin.c`, the newer bucket/private-data based design).

The definitions below are a shallow embedding of the plugin's data model and
control flow.  Driver ioctls, libdrm calls and file I/O are modelled as
explicit oracle inputs (their integer results / returned buckets), and the
pure bookkeeping the plugin performs around them is translated directly from
the C source.  Machine integers are modelled as `Nat`/`Int`; the C code never
relies on wraparound in the fragments modelled here.
-/

namespace AmdGpuPlugin

/-! ## Basic constants from the source and the kernel/libdrm headers -/

/-- `SDMA_LINEAR_COPY_MAX_SIZE` (`1ULL << 21`). -/
def SDMA_LINEAR_COPY_MAX_SIZE : Nat := 2 ^ 21

/-- `AMDGPU_FAMILY_AI` from `amdgpu_drm.h` (value 141). -/
def AMDGPU_FAMILY_AI : Nat := 141

/-- `AMDGPU_TIMEOUT_INFINITE` from `amdgpu_drm.h`: `0xffffffffffffffffull`. -/
def AMDGPU_TIMEOUT_INFINITE : Nat := 2 ^ 64 - 1

/-- `KFD_IOC_ALLOC_MEM_FLAGS_VRAM` (`1 << 0`) from `kfd_ioctl.h`. -/
def KFD_IOC_ALLOC_MEM_FLAGS_VRAM : Nat := 1

/-- `KFD_IOC_ALLOC_MEM_FLAGS_GTT` (`1 << 1`) from `kfd_ioctl.h`. -/
def KFD_IOC_ALLOC_MEM_FLAGS_GTT : Nat := 2

/-- `KFD_IOC_ALLOC_MEM_FLAGS_DOORBELL` (`1 << 3`) from `kfd_ioctl.h`. -/
def KFD_IOC_ALLOC_MEM_FLAGS_DOORBELL : Nat := 8

/-- `KFD_IOC_ALLOC_MEM_FLAGS_MMIO_REMAP` (`1 << 4`) from `kfd_ioctl.h`. -/
def KFD_IOC_ALLOC_MEM_FLAGS_MMIO_REMAP : Nat := 16

/-- `KFD_IOC_ALLOC_MEM_FLAGS_PUBLIC` (`1 << 29`) from `kfd_ioctl.h`. -/
def KFD_IOC_ALLOC_MEM_FLAGS_PUBLIC : Nat := 2 ^ 29

/-! Errno values used by the plugin (returned negated, as in the C source). -/

/-- errno `ENOMEM` (12). -/
def ENOMEM : Int := 12

/-- errno `EBUSY` (16). -/
def EBUSY : Int := 16

/-- errno `ENODEV` (19). -/
def ENODEV : Int := 19

/-- errno `EINVAL` (22). -/
def EINVAL : Int := 22

/-! ## Worker join loop of `dump_bos` / `restore_bos`

Both `dump_bos` (lines 1546-1555) and `restore_bos` (lines 2117-2126) end with
the identical loop

  for (i = 0; i < e->num_of_gpus; i++) {
      pthread_join(thread_datas[i].thread, NULL);
      if (thread_datas[i].ret) { ret = thread_datas[i].ret; goto exit; }
  }

We model it as a pure function of the per-worker result codes: it returns how
many workers got joined and the `ret` value the coordinator ends up with. -/

/-- Join loop of `dump_bos`/`restore_bos` over the spawned workers' result
codes, in spawn order.  Returns `(number of workers joined, final ret)`:
each iteration joins one worker; a nonzero worker result makes the
coordinator `goto exit` immediately, before joining the remaining workers. -/
def bo_workers_join : List Int → Nat × Int
  | [] => (0, 0)
  | r :: rs =>
    if r ≠ 0 then (1, r)
    else ((bo_workers_join rs).1 + 1, (bo_workers_join rs).2)

/-- Number of leading zero (successful) worker results. -/
def leadingOk (rs : List Int) : Nat := (rs.takeWhile (fun r => r == 0)).length

/-! ## Fence wait and cleanup chain in `sdma_copy_bo`

`sdma_copy_bo` submits one command buffer and then executes (lines 880-897):

  err = amdgpu_cs_query_fence_status(&fence, AMDGPU_TIMEOUT_INFINITE, 0, &expired);
  if (err) goto err_cs_submit_ib;
  if (!expired) { err = -EBUSY; goto err_cs_submit_ib; }
  if (type == SDMA_OP_VRAM_READ) memcpy(bo_info_test[i]->rawdata.data, userptr, size);

There is exactly one fence query per submission; no retry loop exists.
Every path — success included — then falls through the cleanup labels
(lines 899-942).  The first three labels free resources without touching
`err`, but each of the six calls from `err_ib_gpu_alloc` on assigns its own
status to `err`, and the function ends with `return err`: whatever value
`err` held when the chain was entered (including the `-EBUSY` of a
not-expired fence) is overwritten, and the function returns the status of
the final `amdgpu_bo_free(h_bo_src)` call. -/

/-- The timeout value `sdma_copy_bo` passes to `amdgpu_cs_query_fence_status`
(line 880 of the source): it is `AMDGPU_TIMEOUT_INFINITE`, not a finite bound. -/
def sdma_fence_wait_timeout : Nat := AMDGPU_TIMEOUT_INFINITE

/-- The value `err` holds when control enters the cleanup chain of
`sdma_copy_bo`, as a function of the fence query result `queryErr` and the
`expired` out-parameter (a `uint32`): a failing query keeps its error, a
not-expired fence sets `-EBUSY`, an expired fence leaves 0.  This is an
intermediate value only — the cleanup chain below overwrites it before the
function returns. -/
def sdma_fence_check (queryErr : Int) (expired : Nat) : Int :=
  if queryErr ≠ 0 then queryErr
  else if expired = 0 then -EBUSY
  else 0

/-- Statuses of the six cleanup calls of `sdma_copy_bo` that assign `err`
(lines 906, 910, 914, 924, 928, 932): dest BO GPU-unmap, dest VA free, dest
BO free, src BO GPU-unmap, src VA free, src BO free. -/
structure SdmaCleanupResults where
  destUnmapRet : Int
  destVaFreeRet : Int
  destBoFreeRet : Int
  srcUnmapRet : Int
  srcVaFreeRet : Int
  srcBoFreeRet : Int
deriving DecidableEq

/-- The cleanup-label chain of `sdma_copy_bo` (lines 899-942) entered with
`err`: `amdgpu_cs_ctx_free`, `amdgpu_bo_list_destroy` and `free_and_unmap`
leave `err` alone, then each of the six remaining calls reassigns it in
order, so the chain's final value — what `sdma_copy_bo` returns — is the
status of the last call, `amdgpu_bo_free(h_bo_src)`, regardless of the
`err` it was entered with. -/
def sdma_copy_bo_cleanup (c : SdmaCleanupResults) (err : Int) : Int :=
  let err := c.destUnmapRet
  let err := c.destVaFreeRet
  let err := c.destBoFreeRet
  let err := c.srcUnmapRet
  let err := c.srcVaFreeRet
  let err := c.srcBoFreeRet
  err

/-- `sdma_copy_bo` from the fence query to its `return err` (lines 880-942):
the pair `(returned status, rawdata memcpy ran)`.  The fence check decides
only whether the `SDMA_OP_VRAM_READ` memcpy into the record's rawdata runs
(lines 894-897); the returned status is the cleanup chain's final value. -/
def sdma_copy_bo_from_fence (queryErr : Int) (expired : Nat)
    (c : SdmaCleanupResults) : Int × Bool :=
  (sdma_copy_bo_cleanup c (sdma_fence_check queryErr expired),
   sdma_fence_check queryErr expired == 0)

/-! ## SDMA linear-copy chunking in `sdma_copy_bo`

Lines 817-846 of the source:

  bytes_remain = size;
  max_copy_size = (family_id >= AMDGPU_FAMILY_AI) ? SDMA_LINEAR_COPY_MAX_SIZE
                                                  : SDMA_LINEAR_COPY_MAX_SIZE - 1;
  while (bytes_remain > 0) {
      copy_size = min(bytes_remain, max_copy_size);
      ib[j++] = SDMA_PACKET(...); ib[j++] = copy_size; ...
      gpu_addr_src += copy_size; gpu_addr_dest += copy_size;
      bytes_remain -= copy_size;
  }

Source and destination addresses advance in lockstep, so a packet is modelled
as the pair `(offset from the start of the buffer, copy size)`. -/

/-- Maximum single linear-copy size chosen by `sdma_copy_bo` for a GPU
family: `SDMA_LINEAR_COPY_MAX_SIZE` on `AMDGPU_FAMILY_AI` and newer,
one byte less on older families. -/
def max_copy_size (family_id : Nat) : Nat :=
  if family_id ≥ AMDGPU_FAMILY_AI then SDMA_LINEAR_COPY_MAX_SIZE
  else SDMA_LINEAR_COPY_MAX_SIZE - 1

/-- The linear-copy packets emitted by the `while (bytes_remain > 0)` loop of
`sdma_copy_bo`, starting at offset `off` with `remain` bytes left.  Each
packet records `(offset, copy_size)` with `copy_size = min remain maxCopy`.
The `maxCopy = 0` guard is unreachable in the source (both possible values
of `max_copy_size` are positive); it only serves termination. -/
def buildCopyPackets (maxCopy off remain : Nat) : List (Nat × Nat) :=
  if h : remain = 0 then []
  else if hm : maxCopy = 0 then []
  else
    (off, min remain maxCopy) ::
      buildCopyPackets maxCopy (off + min remain maxCopy) (remain - min remain maxCopy)
termination_by remain
decreasing_by
  have h1 : 0 < remain := Nat.pos_of_ne_zero h
  have h2 : 0 < maxCopy := Nat.pos_of_ne_zero hm
  have : 0 < min remain maxCopy := lt_min h1 h2
  omega

/-- Sizes of a packet list. -/
def packetSizes (ps : List (Nat × Nat)) : List Nat := ps.map Prod.snd

/-- Consecutiveness check for `(offset, size)` regions: each region starts
exactly where the previous one ended, the first at `o`. -/
def consecutiveFromb (o : Nat) : List (Nat × Nat) → Bool
  | [] => true
  | (off, sz) :: rest => off == o && consecutiveFromb (o + sz) rest

/-- Region `p` does not overlap any region in the list. -/
def disjointFromAll (p : Nat × Nat) : List (Nat × Nat) → Bool
  | [] => true
  | q :: rest =>
    (decide (p.1 + p.2 ≤ q.1) || decide (q.1 + q.2 ≤ p.1)) && disjointFromAll p rest

/-- Pairwise non-overlap of a list of `(offset, size)` regions. -/
def pairwiseDisjointb : List (Nat × Nat) → Bool
  | [] => true
  | p :: rest => disjointFromAll p rest && pairwiseDisjointb rest

/-- All packet sizes are positive and at most `m`. -/
def allSizesBounded (m : Nat) : List (Nat × Nat) → Bool
  | [] => true
  | p :: rest => (decide (0 < p.2) && decide (p.2 ≤ m)) && allSizesBounded m rest

/-! ## Per-buffer transfer strategy of `dump_bo_contents` / `restore_bo_contents`

Each worker thread iterates over all BO buckets (lines 981-1039 for the dump
direction, 1090-1168 for restore).  A bucket belonging to another GPU is
skipped; a bucket with neither the VRAM nor the GTT allocation flag is
skipped; a VRAM bucket is first tried over SDMA, and on SDMA failure (as for
GTT-only buckets) the worker uses the direct mmap path when the buffer is
host-visible (PUBLIC / large-BAR) and the `/proc/<pid>/mem` path otherwise.
(`dump_bos` copies the bucket's `alloc_flags` verbatim into the image entry
before spawning the workers, so the bucket and entry flag words agree.) -/

/-- Which transfer strategy a worker applies to one BO bucket. -/
inductive XferAction where
  | skippedOtherGpu
  | skippedFlags
  | sdmaOnly
  | mmapDirect
  | procMemIndirect
deriving DecidableEq

/-- Strategy selection of `dump_bo_contents` for one bucket, as a function of
the worker's GPU id, the bucket's GPU id and allocation flags, and whether
the single `sdma_copy_bo` call returns 0 (`sdmaOk`) — the caller's only
success criterion (`if (!sdma_copy_bo(...)) continue;`); see
`sdma_copy_bo_from_fence` for why a zero return does not imply the fence
expired. -/
def dump_bo_action (threadGpu bucketGpu flags : Nat) (sdmaOk : Bool) : XferAction :=
  if bucketGpu ≠ threadGpu then .skippedOtherGpu
  else if flags.land KFD_IOC_ALLOC_MEM_FLAGS_VRAM = 0 ∧
          flags.land KFD_IOC_ALLOC_MEM_FLAGS_GTT = 0 then .skippedFlags
  else if flags.land KFD_IOC_ALLOC_MEM_FLAGS_VRAM ≠ 0 ∧ sdmaOk then .sdmaOnly
  else if flags.land KFD_IOC_ALLOC_MEM_FLAGS_PUBLIC ≠ 0 then .mmapDirect
  else .procMemIndirect

/-- Strategy selection of `restore_bo_contents` for one bucket; the control
flow is identical to the dump direction, with write semantics. -/
def restore_bo_action (threadGpu bucketGpu flags : Nat) (sdmaOk : Bool) : XferAction :=
  if bucketGpu ≠ threadGpu then .skippedOtherGpu
  else if flags.land KFD_IOC_ALLOC_MEM_FLAGS_VRAM = 0 ∧
          flags.land KFD_IOC_ALLOC_MEM_FLAGS_GTT = 0 then .skippedFlags
  else if flags.land KFD_IOC_ALLOC_MEM_FLAGS_VRAM ≠ 0 ∧ sdmaOk then .sdmaOnly
  else if flags.land KFD_IOC_ALLOC_MEM_FLAGS_PUBLIC ≠ 0 then .mmapDirect
  else .procMemIndirect

/-- Whether a strategy reads or writes the record's `rawdata` contents:
the two skip outcomes touch nothing, the three transfer strategies do. -/
def rawdataTouched : XferAction → Bool
  | .skippedOtherGpu => false
  | .skippedFlags => false
  | .sdmaOnly => true
  | .mmapDirect => true
  | .procMemIndirect => true

/-! ## Control flow of `amdgpu_plugin_dump_file` on the primary (/dev/kfd) path

Lines 1776-1855 of the source, starting at the `pause_process(fd, true)` call.
Each stage's outcome is an input; the function records the final return value
and which cleanup actions ran.  The `exit:` tail (lines 1841-1853) always
calls `pause_process(fd, false)` and `sys_close_drm_render_devices`, but two
early failure paths return directly without reaching it:

  if (kmtIoctl(fd, AMDKFD_IOC_CRIU_PROCESS_INFO, &info_args) == -1) return -1;
  e = xmalloc(sizeof(*e)); if (!e) return -ENOMEM;

`write_file` on the image is invoked only after every dump stage succeeded. -/

/-- Outcomes of the individual stages of the kfd dump path: return codes of
`pause_process`, the per-category dump helpers and `check_hsakmt_shared_mem`,
whether the `PROCESS_INFO` ioctl fails, and whether the two allocations
succeed, plus the `write_file` result. -/
structure DumpStages where
  pauseRet : Int
  processInfoFails : Bool
  allocEOk : Bool
  dumpProcessRet : Int
  dumpDevicesRet : Int
  dumpBosRet : Int
  dumpQueuesRet : Int
  dumpEventsRet : Int
  checkSharedRet : Int
  allocBufOk : Bool
  writeImageRet : Int
deriving DecidableEq

/-- What a run of the kfd dump path produced: the hook's return value,
whether the cleanup tail unpaused the queues (`pause_process(fd, false)`),
whether `sys_close_drm_render_devices` ran, and whether `write_file` was
invoked on the `kfd.<id>.img` image. -/
structure DumpExit where
  ret : Int
  unpauseCalled : Bool
  renderDevicesClosed : Bool
  imageWriteAttempted : Bool
deriving DecidableEq

/-- The `exit:` tail of `amdgpu_plugin_dump_file`: unconditionally unpauses
and closes all render devices, then returns `ret`. -/
def dump_exit_tail (ret : Int) (wrote : Bool) : DumpExit := ⟨ret, true, true, wrote⟩

/-- Control flow of `amdgpu_plugin_dump_file` from the pause call onward
(primary /dev/kfd file), translated stage by stage from lines 1776-1855. -/
def amdgpu_plugin_dump_file_kfd (s : DumpStages) : DumpExit :=
  if s.pauseRet ≠ 0 then dump_exit_tail s.pauseRet false
  else if s.processInfoFails then ⟨-1, false, false, false⟩
  else if s.allocEOk = false then ⟨-ENOMEM, false, false, false⟩
  else if s.dumpProcessRet ≠ 0 then dump_exit_tail s.dumpProcessRet false
  else if s.dumpDevicesRet ≠ 0 then dump_exit_tail s.dumpDevicesRet false
  else if s.dumpBosRet ≠ 0 then dump_exit_tail s.dumpBosRet false
  else if s.dumpQueuesRet ≠ 0 then dump_exit_tail s.dumpQueuesRet false
  else if s.dumpEventsRet ≠ 0 then dump_exit_tail s.dumpEventsRet false
  else if s.checkSharedRet ≠ 0 then dump_exit_tail s.checkSharedRet false
  else if s.allocBufOk = false then dump_exit_tail (-ENOMEM) false
  else dump_exit_tail s.writeImageRet true

/-! ## Serialization codec for Buffer records

Modelled from the spec: the image codec (`criu_kfd__pack` /
`criu_kfd__unpack` and the `BoEntry` message of `criu-amdgpu.pb-c`) is
generated protobuf code that is not under `src/`; the spec describes it as a
schema-versioned structured binary format with fixed field order whose
variable-length fields are length-prefixed byte strings, with decode failing
on length mismatches or truncated input.  We model the Buffer-record part of
the aggregate: each record's scalar fields are encoded as fixed 8-byte
little-endian words in schema order and its two byte payloads (`rawdata`,
`private_data`) as length-prefixed byte strings; the aggregate is the record
count followed by the records. -/

/-- Buffer record of the image aggregate (`BoEntry`): scalar fields plus the
raw-content payload and the opaque driver-private payload. -/
structure BoEntry where
  gpu_id : Nat
  addr : Nat
  size : Nat
  offset : Nat
  alloc_flags : Nat
  rawdata : List Nat
  private_data : List Nat
deriving DecidableEq

/-- Little-endian 8-byte encoding of a 64-bit scalar field. -/
def toLE8 (v : Nat) : List Nat :=
  [v % 256, v / 256 % 256, v / 65536 % 256, v / 16777216 % 256,
   v / 4294967296 % 256, v / 1099511627776 % 256,
   v / 281474976710656 % 256, v / 72057594037927936 % 256]

/-- Decode one 64-bit little-endian scalar; fails on truncated input. -/
def decodeU64 : List Nat → Option (Nat × List Nat)
  | b0 :: b1 :: b2 :: b3 :: b4 :: b5 :: b6 :: b7 :: rest =>
    some (b0 + 256 * (b1 + 256 * (b2 + 256 * (b3 + 256 * (b4 + 256 *
      (b5 + 256 * (b6 + 256 * b7)))))), rest)
  | _ => none

/-- Length-prefixed encoding of a variable-length byte payload. -/
def encodeBytes (bs : List Nat) : List Nat := toLE8 bs.length ++ bs

/-- Decode one length-prefixed byte payload; fails when the declared length
exceeds the remaining input. -/
def decodeBytes (l : List Nat) : Option (List Nat × List Nat) :=
  match decodeU64 l with
  | none => none
  | some (n, rest) =>
    if n ≤ rest.length then some (rest.take n, rest.drop n) else none

/-- Encode one Buffer record, fields in fixed schema order. -/
def encodeBoEntry (e : BoEntry) : List Nat :=
  toLE8 e.gpu_id ++ toLE8 e.addr ++ toLE8 e.size ++ toLE8 e.offset ++
    toLE8 e.alloc_flags ++ encodeBytes e.rawdata ++ encodeBytes e.private_data

/-- Decode one Buffer record. -/
def decodeBoEntry (l : List Nat) : Option (BoEntry × List Nat) :=
  match decodeU64 l with
  | none => none
  | some (gpu_id, l1) =>
    match decodeU64 l1 with
    | none => none
    | some (addr, l2) =>
      match decodeU64 l2 with
      | none => none
      | some (size, l3) =>
        match decodeU64 l3 with
        | none => none
        | some (offset, l4) =>
          match decodeU64 l4 with
          | none => none
          | some (alloc_flags, l5) =>
            match decodeBytes l5 with
            | none => none
            | some (rawdata, l6) =>
              match decodeBytes l6 with
              | none => none
              | some (private_data, l7) =>
                some (⟨gpu_id, addr, size, offset, alloc_flags, rawdata,
                       private_data⟩, l7)

/-- Encode the Buffer-record part of an image aggregate: record count, then
each record in order. -/
def encodeImage (es : List BoEntry) : List Nat :=
  toLE8 es.length ++ (es.map encodeBoEntry).flatten

/-- Decode `n` consecutive Buffer records. -/
def decodeEntries : Nat → List Nat → Option (List BoEntry × List Nat)
  | 0, l => some ([], l)
  | n + 1, l =>
    match decodeBoEntry l with
    | none => none
    | some (e, rest) =>
      match decodeEntries n rest with
      | none => none
      | some (es, rest2) => some (e :: es, rest2)

/-- Decode an encoded aggregate; fails (`CorruptImage`) on truncation or
trailing garbage. -/
def decodeImage (l : List Nat) : Option (List BoEntry) :=
  match decodeU64 l with
  | none => none
  | some (n, rest) =>
    match decodeEntries n rest with
    | some (es, []) => some es
    | _ => none

/-- Well-formedness of one record in the shallow model: every 64-bit scalar
field and both payload lengths fit in 64 bits (always true of the C structs,
whose fields are `__u64`/`size_t`). -/
def wfBoEntry (e : BoEntry) : Bool :=
  decide (e.gpu_id < 2 ^ 64) && decide (e.addr < 2 ^ 64) &&
    decide (e.size < 2 ^ 64) && decide (e.offset < 2 ^ 64) &&
    decide (e.alloc_flags < 2 ^ 64) && decide (e.rawdata.length < 2 ^ 64) &&
    decide (e.private_data.length < 2 ^ 64)

/-- Well-formedness of the Buffer-record list of an aggregate. -/
def wfImage (es : List BoEntry) : Bool :=
  decide (es.length < 2 ^ 64) && es.all wfBoEntry

/-! ## Private-data packing for the per-category restorer ioctls

`init_restorer_args` zeroes an `objects_size` area holding `num_objects`
fixed buckets followed by a contiguous private-data region; the per-category
restore routines then fill one bucket per record, setting

    bucket->priv_data_size   = entry->private_data.len;
    bucket->priv_data_offset = priv_data_offset;
    priv_data_offset        += bucket->priv_data_size;
    memcpy(priv_data + bucket->priv_data_offset, entry->private_data.data,
           bucket->priv_data_size);

We model the private-data region as a list of bytes and `memcpy` as
`writeAt`; the fixed-bucket prefix of the ioctl area is kept as the bucket
list itself. -/

/-- Result of `memcpy(buf + off, data, data.length)` on a byte list. -/
def writeAt (buf : List Nat) (off : Nat) (data : List Nat) : List Nat :=
  buf.take off ++ data ++ buf.drop (off + data.length)

/-- The `(offset, size)` regions produced by laying out payloads of the given
sizes consecutively, starting at `off`. -/
def regionsFrom (off : Nat) : List Nat → List (Nat × Nat)
  | [] => []
  | n :: rest => (off, n) :: regionsFrom (off + n) rest

/-- One `kfd_criu_bo_bucket` as filled by `restore_bos` (lines 2005-2034):
the destination gpu id from the restore map, the scalar fields copied from
the image entry, and the private-data bookkeeping. -/
structure RestoreBoBucket where
  gpu_id : Nat
  addr : Nat
  size : Nat
  offset : Nat
  alloc_flags : Nat
  priv_data_size : Nat
  priv_data_offset : Nat
deriving DecidableEq

/-- The bucket/private-data filling loop of `restore_bos` (lines 2005-2034),
over the image's BO entries: accumulates buckets, the private-data area and
the running `priv_data_offset`; a restore-map miss (`maps_get_dest_gpu`
returning 0) aborts with `-ENODEV`. -/
def restore_bos_go (lookup : Nat → Nat) :
    List BoEntry → List RestoreBoBucket → List Nat → Nat →
      Except Int (List RestoreBoBucket × List Nat)
  | [], bks, priv, _ => .ok (bks, priv)
  | e :: rest, bks, priv, off =>
    let sz := e.private_data.length
    let priv2 := writeAt priv off e.private_data
    if lookup e.gpu_id = 0 then .error (-ENODEV)
    else
      restore_bos_go lookup rest
        (bks ++ [⟨lookup e.gpu_id, e.addr, e.size, e.offset, e.alloc_flags, sz, off⟩])
        priv2 (off + sz)

/-- Total private-data bytes of a BO entry list (the private-data part of
`objects_size` computed at lines 1995-1996). -/
def boPrivTotal (es : List BoEntry) : Nat :=
  (es.map fun e => e.private_data.length).sum

/-- The packing phase of `restore_bos`: starts from the zeroed area of
`init_restorer_args` and offset 0. -/
def restore_bos_pack (lookup : Nat → Nat) (es : List BoEntry) :
    Except Int (List RestoreBoBucket × List Nat) :=
  restore_bos_go lookup es [] (List.replicate (boPrivTotal es) 0) 0

/-- A device entry of the image (`DeviceEntry`): its stored (user) gpu id —
zero for CPU nodes — and its private-data payload. -/
structure DevRecord where
  gpu_id : Nat
  priv : List Nat
deriving DecidableEq

/-- One `kfd_criu_device_bucket` as filled by `restore_devices`
(lines 1922-1963). -/
structure DeviceBucket where
  user_gpu_id : Nat
  actual_gpu_id : Nat
  drm_fd : Int
  priv_data_size : Nat
  priv_data_offset : Nat
deriving DecidableEq

/-- The bucket/private-data filling loop of `restore_devices`
(lines 1922-1963): CPU entries (`gpu_id == 0`) are skipped; a restore-map
miss or a missing destination node aborts with `-ENODEV`; a negative render
fd makes the C code `goto exit` while `ret` is still 0 (it assigns the
unused `fd` parameter instead) — that abandoned path is `.error 0` here.
`nodeFd` combines `sys_get_node_by_gpu_id` (none = no such node) with
`node_get_drm_render_device` on the found node. -/
def restore_devices_go (lookup : Nat → Nat) (nodeFd : Nat → Option Int) :
    List DevRecord → List DeviceBucket → List Nat → Nat →
      Except Int (List DeviceBucket × List Nat)
  | [], bks, priv, _ => .ok (bks, priv)
  | d :: rest, bks, priv, off =>
    if d.gpu_id = 0 then restore_devices_go lookup nodeFd rest bks priv off
    else
      let sz := d.priv.length
      let priv2 := writeAt priv off d.priv
      if lookup d.gpu_id = 0 then .error (-ENODEV)
      else
        match nodeFd (lookup d.gpu_id) with
        | none => .error (-ENODEV)
        | some fd =>
          if fd < 0 then .error 0
          else
            restore_devices_go lookup nodeFd rest
              (bks ++ [⟨d.gpu_id, lookup d.gpu_id, fd, sz, off⟩]) priv2 (off + sz)

/-- GPU entries of a device-entry list (CPU entries carry `gpu_id == 0` and
are skipped by `restore_devices`). -/
def devGpuEntries (ds : List DevRecord) : List DevRecord :=
  ds.filter fun d => d.gpu_id != 0

/-- Total private-data bytes of the GPU entries (the private-data part of
`objects_size` computed at lines 1905-1912). -/
def devPrivTotal (ds : List DevRecord) : Nat :=
  ((devGpuEntries ds).map fun d => d.priv.length).sum

/-- The packing phase of `restore_devices`: starts from the zeroed area of
`init_restorer_args` and offset 0. -/
def restore_devices_pack (lookup : Nat → Nat) (nodeFd : Nat → Option Int)
    (ds : List DevRecord) : Except Int (List DeviceBucket × List Nat) :=
  restore_devices_go lookup nodeFd ds [] (List.replicate (devPrivTotal ds) 0) 0

/-- One `kfd_criu_queue_bucket` as filled by `restore_queues`
(lines 2159-2178): the destination gpu id and the private-data bookkeeping. -/
structure QueueBucketOut where
  gpu_id : Nat
  priv_data_size : Nat
  priv_data_offset : Nat
deriving DecidableEq

/-- One `kfd_criu_event_bucket` as filled by `restore_events`
(lines 2219-2240); `gpu_id` stays 0 for events not bound to a GPU. -/
structure EventBucketOut where
  gpu_id : Nat
  priv_data_size : Nat
  priv_data_offset : Nat
deriving DecidableEq

/-! ## Device-id map lookups at the remaining call sites

`maps_get_dest_gpu` (from the topology component) returns 0 when the queried
id has no mapping; the call sites below are modelled with the map as an
abstract function `lookup`. -/

/-- One `kfd_criu_bo_bucket` as returned by the dumper ioctl, with its slice
of the private-data area (fields used by `dump_bos`, lines 1482-1514). -/
structure DumpBoBucket where
  gpu_id : Nat
  addr : Nat
  size : Nat
  offset : Nat
  alloc_flags : Nat
  priv : List Nat
deriving DecidableEq

/-- The per-bucket record loop of `dump_bos` (lines 1482-1514): each bucket's
private data is copied into the image entry, the checkpoint map translates
`bo_bucket->gpu_id` (0 aborts with `-ENODEV`), and the scalar fields are
copied.  The `rawdata` payload is preallocated by `allocate_bo_entries` and
filled later by the worker threads, so it is left empty here. -/
def dump_bos_records (lookup : Nat → Nat) : List DumpBoBucket → Except Int (List BoEntry)
  | [] => .ok []
  | b :: rest =>
    if lookup b.gpu_id = 0 then .error (-ENODEV)
    else
      match dump_bos_records lookup rest with
      | .error c => .error c
      | .ok es =>
        .ok (⟨lookup b.gpu_id, b.addr, b.size, b.offset, b.alloc_flags, [], b.priv⟩ :: es)

/-- A topology node as read by `topology_to_devinfo` (lines 354-419): its
stable node id and its gpu id — 0 for CPU nodes, which is exactly what
`NODE_IS_GPU` tests.  The many per-field scalar copies and the iolink
sub-records of the source carry no map lookup and are omitted. -/
structure TpNode where
  id : Nat
  gpu_id : Nat
deriving DecidableEq

/-- The per-node loop of `topology_to_devinfo` (lines 354-419), which fills
the dump-side device entries from the parsed topology: each GPU node's gpu
id is translated through the checkpoint map and a result of 0 aborts the
whole conversion with `-EINVAL`; CPU nodes take the cpu branch and do no
lookup (their stored gpu id stays 0 from the zeroed allocation).  Returns
the `(node_id, stored gpu_id)` pairs. -/
def topology_to_devinfo (lookup : Nat → Nat) : List TpNode → Except Int (List (Nat × Nat))
  | [] => .ok []
  | n :: rest =>
    if n.gpu_id ≠ 0 then
      if lookup n.gpu_id = 0 then .error (-EINVAL)
      else
        match topology_to_devinfo lookup rest with
        | .error c => .error c
        | .ok ds => .ok ((n.id, lookup n.gpu_id) :: ds)
    else
      match topology_to_devinfo lookup rest with
      | .error c => .error c
      | .ok ds => .ok ((n.id, 0) :: ds)

/-- A queue record: its gpu id and private-data payload (the fields of
`kfd_criu_queue_bucket` / `QEntry` that the routines below inspect). -/
structure QueueRecord where
  gpu_id : Nat
  priv : List Nat
deriving DecidableEq

/-- An event record: its gpu id (0 for events not bound to a GPU) and
private-data payload. -/
structure EventRecord where
  gpu_id : Nat
  priv : List Nat
deriving DecidableEq

/-- Oracle inputs of a dump-side per-category routine: whether the
`init_dumper_args` allocation succeeds, the dumper ioctl's return value, and
the buckets the ioctl writes into the args area.  (Per-entry `xmalloc`
failures inside the copy loops are assumed away: allocation is modelled by
the single `allocOk` flag.) -/
structure DumpOracle (α : Type) where
  allocOk : Bool
  ioctlRet : Int
  buckets : List α
deriving DecidableEq

/-- Oracle inputs of a restore-side per-category routine: whether the
`init_restorer_args` allocation succeeds and the restorer ioctl's return
value. -/
structure RestoreOracle where
  allocOk : Bool
  ioctlRet : Int
deriving DecidableEq

/-- `dump_queues` (lines 1563-1626) as `(ret, dumper ioctl called, queue
entries added to the aggregate)`: zero total queues returns 0 before the args
allocation and the ioctl; otherwise `allocate_q_entries` adds `total`
entries and each bucket's gpu id must map (`maps_get_dest_gpu` ≠ 0), a miss
yielding `-ENODEV`. -/
def dump_queues (total : Nat) (lookup : Nat → Nat) (o : DumpOracle QueueRecord) :
    Int × Bool × Nat :=
  if total = 0 then (0, false, 0)
  else if o.allocOk = false then (-ENOMEM, false, 0)
  else if o.ioctlRet ≠ 0 then (o.ioctlRet, true, 0)
  else if o.buckets.all (fun b => !(lookup b.gpu_id == 0)) then (0, true, total)
  else (-ENODEV, true, total)

/-- `dump_events` (lines 1628-1696), analogous to `dump_queues` except that a
bucket with `gpu_id == 0` skips the map lookup (lines 1673-1679). -/
def dump_events (total : Nat) (lookup : Nat → Nat) (o : DumpOracle EventRecord) :
    Int × Bool × Nat :=
  if total = 0 then (0, false, 0)
  else if o.allocOk = false then (-ENOMEM, false, 0)
  else if o.ioctlRet ≠ 0 then (o.ioctlRet, true, 0)
  else if o.buckets.all (fun b => b.gpu_id == 0 || !(lookup b.gpu_id == 0)) then
    (0, true, total)
  else (-ENODEV, true, total)

/-- `restore_queues` (lines 2134-2190) as `(ret, restorer ioctl called)`:
zero stored queues returns 0 before the args allocation and the ioctl; a
restore-map miss for any queue aborts with `-ENODEV` before the ioctl. -/
def restore_queues (numQueues : Nat) (entries : List QueueRecord)
    (lookup : Nat → Nat) (o : RestoreOracle) : Int × Bool :=
  if numQueues = 0 then (0, false)
  else if o.allocOk = false then (-ENOMEM, false)
  else if entries.all (fun q => !(lookup q.gpu_id == 0)) then (o.ioctlRet, true)
  else (-ENODEV, false)

/-- `restore_events` (lines 2192-2252), analogous to `restore_queues` except
that entries with `gpu_id == 0` skip the map lookup (lines 2231-2237). -/
def restore_events (numEvents : Nat) (entries : List EventRecord)
    (lookup : Nat → Nat) (o : RestoreOracle) : Int × Bool :=
  if numEvents = 0 then (0, false)
  else if o.allocOk = false then (-ENOMEM, false)
  else if entries.all (fun ev => ev.gpu_id == 0 || !(lookup ev.gpu_id == 0)) then
    (o.ioctlRet, true)
  else (-ENODEV, false)

/-- The bucket/private-data filling loop of `restore_queues`
(lines 2159-2178), the layout-level counterpart of `restore_queues` above:
identical priv-data bookkeeping to `restore_bos` — size, running offset,
memcpy, then the restore-map lookup whose 0 result aborts with `-ENODEV`. -/
def restore_queues_go (lookup : Nat → Nat) :
    List QueueRecord → List QueueBucketOut → List Nat → Nat →
      Except Int (List QueueBucketOut × List Nat)
  | [], bks, priv, _ => .ok (bks, priv)
  | q :: rest, bks, priv, off =>
    let sz := q.priv.length
    let priv2 := writeAt priv off q.priv
    if lookup q.gpu_id = 0 then .error (-ENODEV)
    else
      restore_queues_go lookup rest (bks ++ [⟨lookup q.gpu_id, sz, off⟩]) priv2 (off + sz)

/-- Total private-data bytes of a queue-entry list (the private-data part of
`objects_size` computed at lines 2148-2149). -/
def queuePrivTotal (qs : List QueueRecord) : Nat :=
  (qs.map fun q => q.priv.length).sum

/-- The packing phase of `restore_queues`: starts from the zeroed area of
`init_restorer_args` and offset 0. -/
def restore_queues_pack (lookup : Nat → Nat) (qs : List QueueRecord) :
    Except Int (List QueueBucketOut × List Nat) :=
  restore_queues_go lookup qs [] (List.replicate (queuePrivTotal qs) 0) 0

/-- The bucket/private-data filling loop of `restore_events`
(lines 2219-2240), the layout-level counterpart of `restore_events` above:
every record — GPU-bound or not — gets a bucket with the same priv-data
bookkeeping; only records with a nonzero gpu id do the restore-map lookup
(0 aborting with `-ENODEV`), others keep bucket gpu id 0. -/
def restore_events_go (lookup : Nat → Nat) :
    List EventRecord → List EventBucketOut → List Nat → Nat →
      Except Int (List EventBucketOut × List Nat)
  | [], bks, priv, _ => .ok (bks, priv)
  | ev :: rest, bks, priv, off =>
    let sz := ev.priv.length
    let priv2 := writeAt priv off ev.priv
    if ev.gpu_id ≠ 0 then
      if lookup ev.gpu_id = 0 then .error (-ENODEV)
      else
        restore_events_go lookup rest (bks ++ [⟨lookup ev.gpu_id, sz, off⟩]) priv2 (off + sz)
    else
      restore_events_go lookup rest (bks ++ [⟨0, sz, off⟩]) priv2 (off + sz)

/-- Total private-data bytes of an event-entry list (the private-data part of
`objects_size` computed at lines 2206-2207). -/
def eventPrivTotal (evs : List EventRecord) : Nat :=
  (evs.map fun ev => ev.priv.length).sum

/-- The packing phase of `restore_events`: starts from the zeroed area of
`init_restorer_args` and offset 0. -/
def restore_events_pack (lookup : Nat → Nat) (evs : List EventRecord) :
    Except Int (List EventBucketOut × List Nat) :=
  restore_events_go lookup evs [] (List.replicate (eventPrivTotal evs) 0) 0

/-- The render-node branch of `amdgpu_plugin_dump_file` (lines 1735-1770):
`node` is the result of `sys_get_node_by_render_minor` carrying the found
node's gpu id (none = `-ENODEV`); a checkpoint-map miss returns `-ENODEV`;
otherwise the packed render-node record is written and `write_file`'s result
is returned.  (The `xmalloc` failure path returning `-ENOMEM` is assumed
away.) -/
def renderD_dump (lookup : Nat → Nat) (node : Option Nat) (writeRet : Int) : Int :=
  match node with
  | none => -ENODEV
  | some gid => if lookup gid = 0 then -ENODEV else writeRet

/-- The render-node branch of `amdgpu_plugin_restore_file` (lines 2306-2328):
the stored record's gpu id is translated through the restore map (0 returns
`-ENODEV`), the destination node is looked up (`findNode`, none = `-ENODEV`),
and `node_get_drm_render_device`'s fd (`nodeFd`, negative on failure) is
returned as is. -/
def renderD_restore (lookup : Nat → Nat) (rd_gpu_id : Nat)
    (findNode : Nat → Option Nat) (nodeFd : Nat → Int) : Int :=
  if lookup rd_gpu_id = 0 then -ENODEV
  else
    match findNode (lookup rd_gpu_id) with
    | none => -ENODEV
    | some n => nodeFd n

/-! ## Environment toggles of the topology matcher (`getenv_bool`,
`amdgpu_plugin_init`)

`getenv_bool` (lines 478-492) mutates a boolean in place:

  if (value_str) {
      if (!strcmp(value_str, "0") || !strcasecmp(value_str, "NO")) *value = false;
      else if (!strcmp(value_str, "1") || !strcasecmp(value_str, "YES")) *value = true;
      else pr_err("Ignoring invalid value ...");
  }

Strings are byte lists; `c_tolower` is C `tolower` on ASCII, and
`strcasecmp(a, b) == 0` is equality of the lowered strings.  The relevant
byte values: "0" = [48], "1" = [49], "NO" = [78, 79], "YES" = [89, 69, 83]. -/

/-- ASCII `tolower`. -/
def c_tolower (c : Nat) : Nat := if 65 ≤ c ∧ c ≤ 90 then c + 32 else c

/-- `strcasecmp(a, b) == 0`: case-insensitive string equality. -/
def strcaseeq (a b : List Nat) : Bool := a.map c_tolower == b.map c_tolower

/-- `getenv_bool`: the new value of the toggle given the environment
variable's value (`none` when unset) and the toggle's prior value.  An
unset variable or an unrecognized value leaves the value unchanged (the
latter after a `pr_err` warning). -/
def getenv_bool (value_str : Option (List Nat)) (value : Bool) : Bool :=
  match value_str with
  | none => value
  | some s =>
    if s == [48] || strcaseeq s [78, 79] then false
    else if s == [49] || strcaseeq s [89, 69, 83] then true
    else value

/-- Whether a value string is one of the recognized forms
("0", "NO", "1", "YES", the letters case-insensitively). -/
def recognizedBoolValue (s : List Nat) : Bool :=
  s == [48] || strcaseeq s [78, 79] || s == [49] || strcaseeq s [89, 69, 83]

/-- The six compatibility-check environment variables read by
`amdgpu_plugin_init` (KFD_FW_VER_CHECK, KFD_SDMA_FW_VER_CHECK,
KFD_CACHES_COUNT_CHECK, KFD_NUM_GWS_CHECK, KFD_VRAM_SIZE_CHECK,
KFD_NUMA_CHECK). -/
inductive KfdEnvVar where
  | fwVerCheck
  | sdmaFwVerCheck
  | cachesCountCheck
  | numGwsCheck
  | vramSizeCheck
  | numaCheck
deriving DecidableEq

/-- The six topology-matcher compatibility toggles
(`kfd_fw_version_check`, ..., `kfd_numa_check`). -/
structure KfdCheckToggles where
  fw_version_check : Bool
  sdma_fw_version_check : Bool
  caches_count_check : Bool
  num_gws_check : Bool
  vram_size_check : Bool
  numa_check : Bool
deriving DecidableEq

/-- `CR_PLUGIN_STAGE__RESTORE` (the second value of the criu plugin stage
enum). -/
def CR_PLUGIN_STAGE_RESTORE : Nat := 1

/-- The toggle initialization in `amdgpu_plugin_init` (lines 503-518): at
restore stage every toggle defaults to `true` and is then updated by
`getenv_bool` from its environment variable; at other stages the globals
are untouched. -/
def amdgpu_plugin_init_toggles (stage : Nat) (env : KfdEnvVar → Option (List Nat))
    (prior : KfdCheckToggles) : KfdCheckToggles :=
  if stage = CR_PLUGIN_STAGE_RESTORE then
    { fw_version_check := getenv_bool (env .fwVerCheck) true
      sdma_fw_version_check := getenv_bool (env .sdmaFwVerCheck) true
      caches_count_check := getenv_bool (env .cachesCountCheck) true
      num_gws_check := getenv_bool (env .numGwsCheck) true
      vram_size_check := getenv_bool (env .vramSizeCheck) true
      numa_check := getenv_bool (env .numaCheck) true }
  else prior

/-! ## Helper lemmas about the chunking loop -/

theorem max_copy_size_pos (family_id : Nat) : 0 < max_copy_size family_id := by
  unfold max_copy_size
  split <;> decide

theorem buildCopyPackets_sum (m : Nat) (hm : 0 < m) :
    ∀ n off, (packetSizes (buildCopyPackets m off n)).sum = n := by
  intro n
  induction n using Nat.strong_induction_on with
  | _ n ih =>
    intro off
    by_cases h : n = 0
    · rw [buildCopyPackets]
      simp [h, packetSizes]
    · have hm0 : m ≠ 0 := Nat.pos_iff_ne_zero.mp hm
      rw [buildCopyPackets]
      have hc : 0 < min n m := lt_min (Nat.pos_of_ne_zero h) hm
      have hlt : n - min n m < n := by omega
      simp only [h, hm0, dite_false, packetSizes, List.map_cons, List.sum_cons]
      have := ih (n - min n m) hlt (off + min n m)
      unfold packetSizes at this
      rw [this]
      have : min n m ≤ n := Nat.min_le_left n m
      omega

theorem buildCopyPackets_bounded (m : Nat) (hm : 0 < m) :
    ∀ n off, allSizesBounded m (buildCopyPackets m off n) = true := by
  intro n
  induction n using Nat.strong_induction_on with
  | _ n ih =>
    intro off
    by_cases h : n = 0
    · rw [buildCopyPackets]; simp [h, allSizesBounded]
    · have hm0 : m ≠ 0 := Nat.pos_iff_ne_zero.mp hm
      rw [buildCopyPackets]
      have hc : 0 < min n m := lt_min (Nat.pos_of_ne_zero h) hm
      have hlt : n - min n m < n := by omega
      simp only [h, hm0, dite_false, allSizesBounded, Bool.and_eq_true, decide_eq_true_eq]
      refine ⟨⟨hc, Nat.min_le_right n m⟩, ih (n - min n m) hlt (off + min n m)⟩

theorem buildCopyPackets_consecutive (m : Nat) (hm : 0 < m) :
    ∀ n off, consecutiveFromb off (buildCopyPackets m off n) = true := by
  intro n
  induction n using Nat.strong_induction_on with
  | _ n ih =>
    intro off
    by_cases h : n = 0
    · rw [buildCopyPackets]; simp [h, consecutiveFromb]
    · have hm0 : m ≠ 0 := Nat.pos_iff_ne_zero.mp hm
      rw [buildCopyPackets]
      have hc : 0 < min n m := lt_min (Nat.pos_of_ne_zero h) hm
      have hlt : n - min n m < n := by omega
      simp only [h, hm0, dite_false, consecutiveFromb, Bool.and_eq_true, beq_self_eq_true,
        true_and]
      exact ih (n - min n m) hlt (off + min n m)

theorem consecutiveFromb_lb :
    ∀ (ps : List (Nat × Nat)) (o : Nat), consecutiveFromb o ps = true →
      ∀ p ∈ ps, o ≤ p.1 := by
  intro ps
  induction ps with
  | nil => intro o _ p hp; cases hp
  | cons q rest ih =>
    intro o hc p hp
    obtain ⟨qo, qs⟩ := q
    simp only [consecutiveFromb, Bool.and_eq_true, beq_iff_eq] at hc
    obtain ⟨rfl, hrest⟩ := hc
    rcases List.mem_cons.mp hp with hp | hp
    · simp [hp]
    · have := ih (qo + qs) hrest p hp
      omega

theorem disjointFromAll_of_lb (p : Nat × Nat) (ps : List (Nat × Nat))
    (h : ∀ q ∈ ps, p.1 + p.2 ≤ q.1) : disjointFromAll p ps = true := by
  induction ps with
  | nil => rfl
  | cons q rest ih =>
    simp only [disjointFromAll, Bool.and_eq_true, Bool.or_eq_true, decide_eq_true_eq]
    refine ⟨Or.inl (h q (by simp)), ih fun r hr => h r (by simp [hr])⟩

theorem consecutiveFromb_disjoint :
    ∀ (ps : List (Nat × Nat)) (o : Nat), consecutiveFromb o ps = true →
      pairwiseDisjointb ps = true := by
  intro ps
  induction ps with
  | nil => intro o _; rfl
  | cons q rest ih =>
    intro o hc
    obtain ⟨qo, qs⟩ := q
    simp only [consecutiveFromb, Bool.and_eq_true, beq_iff_eq] at hc
    obtain ⟨rfl, hrest⟩ := hc
    simp only [pairwiseDisjointb, Bool.and_eq_true]
    constructor
    · exact disjointFromAll_of_lb _ _ fun r hr => consecutiveFromb_lb rest (qo + qs) hrest r hr
    · exact ih (qo + qs) hrest

theorem buildCopyPackets_length (m n off : Nat) (hm : 0 < m) (hn : m < n) :
    2 ≤ (buildCopyPackets m off n).length := by
  have h0 : n ≠ 0 := by omega
  have hm0 : m ≠ 0 := Nat.pos_iff_ne_zero.mp hm
  rw [buildCopyPackets]
  simp only [h0, hm0, dite_false, List.length_cons]
  have hmin : min n m = m := Nat.min_eq_right (by omega)
  have h1 : n - min n m ≠ 0 := by omega
  rw [buildCopyPackets]
  simp [h1, hm0]

theorem buildCopyPackets_last (m : Nat) (hm : 0 < m) :
    ∀ n off, 0 < n →
      (buildCopyPackets m off n).getLast?.map Prod.snd =
        some (if n % m = 0 then m else n % m) := by
  intro n
  induction n using Nat.strong_induction_on with
  | _ n ih =>
    intro off hn
    have h0 : n ≠ 0 := Nat.pos_iff_ne_zero.mp hn
    have hm0 : m ≠ 0 := Nat.pos_iff_ne_zero.mp hm
    rw [buildCopyPackets]
    simp only [h0, hm0, dite_false]
    by_cases hle : n ≤ m
    · have hmin : min n m = n := Nat.min_eq_left hle
      have hz : n - min n m = 0 := by omega
      rw [hz, buildCopyPackets]
      simp only [dite_true, List.getLast?_singleton, Option.map_some]
      rcases Nat.lt_or_ge n m with hlt | hge
      · have : n % m = n := Nat.mod_eq_of_lt hlt
        simp [this, h0, hmin]
      · have hnm : n = m := by omega
        simp [hnm, Nat.mod_self, hmin]
    · have hmin : min n m = m := Nat.min_eq_right (by omega)
      rw [hmin]
      have hpos : 0 < n - m := by omega
      have hlt : n - m < n := by omega
      have hrec := ih (n - m) hlt (off + m) hpos
      have hne : buildCopyPackets m (off + m) (n - m) ≠ [] := by
        rw [buildCopyPackets]
        simp [Nat.pos_iff_ne_zero.mp hpos, hm0]
      obtain ⟨b, bs, hbs⟩ : ∃ b bs, buildCopyPackets m (off + m) (n - m) = b :: bs := by
        rcases hb : buildCopyPackets m (off + m) (n - m) with _ | ⟨b, bs⟩
        · exact absurd hb hne
        · exact ⟨b, bs, rfl⟩
      rw [hbs, List.getLast?_cons_cons, ← hbs, hrec]
      have hmod : (n - m) % m = n % m := by
        conv_rhs => rw [show n = m + (n - m) by omega]
        rw [Nat.add_mod_left]
      rw [hmod]

/-! ## Helper lemmas about the worker join loop -/

theorem bo_workers_join_cons_ne (r : Int) (rs : List Int) (hr : r ≠ 0) :
    bo_workers_join (r :: rs) = (1, r) := by
  simp [bo_workers_join, hr]

theorem bo_workers_join_cons_zero (rs : List Int) :
    bo_workers_join ((0 : Int) :: rs) =
      ((bo_workers_join rs).1 + 1, (bo_workers_join rs).2) := by
  simp [bo_workers_join]

theorem leadingOk_cons_zero (rs : List Int) :
    leadingOk ((0 : Int) :: rs) = leadingOk rs + 1 := by
  simp [leadingOk, List.takeWhile_cons]

theorem leadingOk_cons_ne (r : Int) (rs : List Int) (hr : r ≠ 0) :
    leadingOk (r :: rs) = 0 := by
  simp [leadingOk, List.takeWhile_cons, hr]

/-! ## Helper lemmas about the codec -/

theorem decodeU64_toLE8 (v : Nat) (hv : v < 2 ^ 64) (rest : List Nat) :
    decodeU64 (toLE8 v ++ rest) = some (v, rest) := by
  simp only [toLE8, List.cons_append, List.nil_append, decodeU64, Option.some.injEq,
    Prod.mk.injEq, and_true]
  omega

theorem decodeBytes_encodeBytes (bs rest : List Nat) (h : bs.length < 2 ^ 64) :
    decodeBytes (encodeBytes bs ++ rest) = some (bs, rest) := by
  unfold encodeBytes decodeBytes
  rw [List.append_assoc, decodeU64_toLE8 _ h]
  simp only [List.length_append, Nat.le_add_right, ite_true,
    List.take_left, List.drop_left]

theorem decodeBoEntry_encodeBoEntry (e : BoEntry) (rest : List Nat)
    (h : wfBoEntry e = true) :
    decodeBoEntry (encodeBoEntry e ++ rest) = some (e, rest) := by
  simp only [wfBoEntry, Bool.and_eq_true, decide_eq_true_eq] at h
  obtain ⟨⟨⟨⟨⟨⟨h1, h2⟩, h3⟩, h4⟩, h5⟩, h6⟩, h7⟩ := h
  unfold encodeBoEntry decodeBoEntry
  simp only [List.append_assoc]
  simp only [decodeU64_toLE8 _ h1, decodeU64_toLE8 _ h2, decodeU64_toLE8 _ h3,
    decodeU64_toLE8 _ h4, decodeU64_toLE8 _ h5, decodeBytes_encodeBytes _ _ h6,
    decodeBytes_encodeBytes _ _ h7]

theorem decodeEntries_encode (es : List BoEntry) (rest : List Nat)
    (h : es.all wfBoEntry = true) :
    decodeEntries es.length ((es.map encodeBoEntry).flatten ++ rest) =
      some (es, rest) := by
  induction es with
  | nil => simp [decodeEntries]
  | cons e es ih =>
    simp only [List.all_cons, Bool.and_eq_true] at h
    simp only [List.length_cons, List.map_cons, List.flatten_cons, List.append_assoc,
      decodeEntries]
    simp only [decodeBoEntry_encodeBoEntry e _ h.1, ih h.2]

/-! ## Helper lemmas about the restorer-args packing -/

theorem writeAt_append (P Q data : List Nat) :
    writeAt (P ++ Q) P.length data = P ++ (data ++ Q.drop data.length) := by
  unfold writeAt
  rw [List.take_left]
  have hdrop : (P ++ Q).drop (P.length + data.length) = Q.drop data.length := by
    rw [← List.drop_drop, List.drop_left]
  rw [hdrop, List.append_assoc]

theorem regionsFrom_map_snd :
    ∀ (off : Nat) (lens : List Nat), (regionsFrom off lens).map Prod.snd = lens := by
  intro off lens
  induction lens generalizing off with
  | nil => rfl
  | cons n rest ih => simp [regionsFrom, ih]

theorem regionsFrom_consecutive :
    ∀ (lens : List Nat) (off : Nat), consecutiveFromb off (regionsFrom off lens) = true := by
  intro lens
  induction lens with
  | nil => intro off; rfl
  | cons n rest ih =>
    intro off
    simp only [regionsFrom, consecutiveFromb, Bool.and_eq_true, beq_self_eq_true, true_and]
    exact ih (off + n)

theorem restore_bos_go_spec (lookup : Nat → Nat) :
    ∀ (es : List BoEntry) (bks : List RestoreBoBucket) (P Q : List Nat)
      (out : List RestoreBoBucket × List Nat),
      boPrivTotal es = Q.length →
      restore_bos_go lookup es bks (P ++ Q) P.length = .ok out →
      out.1.map (fun b => (b.priv_data_offset, b.priv_data_size)) =
        bks.map (fun b => (b.priv_data_offset, b.priv_data_size)) ++
          regionsFrom P.length (es.map fun e => e.private_data.length) ∧
      out.2 = P ++ (es.map fun e => e.private_data).flatten ∧
      (∀ b ∈ out.1, b ∈ bks ∨ b.gpu_id ≠ 0) := by
  intro es
  induction es with
  | nil =>
    intro bks P Q out hsum hok
    simp only [restore_bos_go, Except.ok.injEq] at hok
    have hq : Q = [] := by
      have : Q.length = 0 := by simpa [boPrivTotal] using hsum.symm
      exact List.length_eq_zero.mp this
    subst hq
    subst hok
    refine ⟨by simp [regionsFrom], by simp, fun b hb => Or.inl hb⟩
  | cons e rest ih =>
    intro bks P Q out hsum hok
    simp only [restore_bos_go] at hok
    by_cases hg : lookup e.gpu_id = 0
    · rw [if_pos hg] at hok
      exact absurd hok (by simp)
    · rw [if_neg hg, writeAt_append,
        show P ++ (e.private_data ++ Q.drop e.private_data.length) =
            (P ++ e.private_data) ++ Q.drop e.private_data.length from
          (List.append_assoc _ _ _).symm,
        show P.length + e.private_data.length = (P ++ e.private_data).length from
          (List.length_append _ _).symm] at hok
      have hsum2 : boPrivTotal rest = (Q.drop e.private_data.length).length := by
        simp only [boPrivTotal, List.map_cons, List.sum_cons] at hsum
        simp only [List.length_drop, boPrivTotal]
        omega
      obtain ⟨h1, h2, h3⟩ :=
        ih (bks ++ [⟨lookup e.gpu_id, e.addr, e.size, e.offset, e.alloc_flags,
              e.private_data.length, P.length⟩])
           (P ++ e.private_data) (Q.drop e.private_data.length) out hsum2 hok
      refine ⟨?_, ?_, ?_⟩
      · rw [h1]
        simp [regionsFrom, List.append_assoc]
      · rw [h2]
        simp
      · intro b hb
        rcases h3 b hb with hmem | hne
        · rcases List.mem_append.mp hmem with hm | hm
          · exact Or.inl hm
          · right
            have : b = ⟨lookup e.gpu_id, e.addr, e.size, e.offset, e.alloc_flags,
                e.private_data.length, P.length⟩ := by simpa using hm
            rw [this]
            exact hg
        · exact Or.inr hne

theorem restore_devices_go_spec (lookup : Nat → Nat) (nodeFd : Nat → Option Int) :
    ∀ (ds : List DevRecord) (bks : List DeviceBucket) (P Q : List Nat)
      (out : List DeviceBucket × List Nat),
      devPrivTotal ds = Q.length →
      restore_devices_go lookup nodeFd ds bks (P ++ Q) P.length = .ok out →
      out.1.map (fun b => (b.priv_data_offset, b.priv_data_size)) =
        bks.map (fun b => (b.priv_data_offset, b.priv_data_size)) ++
          regionsFrom P.length ((devGpuEntries ds).map fun d => d.priv.length) ∧
      out.2 = P ++ ((devGpuEntries ds).map fun d => d.priv).flatten ∧
      (∀ b ∈ out.1, b ∈ bks ∨ b.actual_gpu_id ≠ 0) := by
  intro ds
  induction ds with
  | nil =>
    intro bks P Q out hsum hok
    simp only [restore_devices_go, Except.ok.injEq] at hok
    have hq : Q = [] := by
      have : Q.length = 0 := by simpa [devPrivTotal, devGpuEntries] using hsum.symm
      exact List.length_eq_zero.mp this
    subst hq
    subst hok
    refine ⟨by simp [regionsFrom, devGpuEntries], by simp [devGpuEntries],
      fun b hb => Or.inl hb⟩
  | cons d rest ih =>
    intro bks P Q out hsum hok
    simp only [restore_devices_go] at hok
    by_cases hcpu : d.gpu_id = 0
    · rw [if_pos hcpu] at hok
      have hskip : devGpuEntries (d :: rest) = devGpuEntries rest := by
        simp [devGpuEntries, hcpu]
      have hsum2 : devPrivTotal rest = Q.length := by
        simpa [devPrivTotal, hskip] using hsum
      obtain ⟨h1, h2, h3⟩ := ih bks P Q out hsum2 hok
      exact ⟨by rw [h1, hskip], by rw [h2, hskip], h3⟩
    · rw [if_neg hcpu] at hok
      have hgpu : devGpuEntries (d :: rest) = d :: devGpuEntries rest := by
        simp [devGpuEntries, hcpu]
      by_cases hg : lookup d.gpu_id = 0
      · rw [if_pos hg] at hok
        exact absurd hok (by simp)
      · rw [if_neg hg] at hok
        rcases hfd : nodeFd (lookup d.gpu_id) with _ | fd
        · simp only [hfd] at hok
          exact absurd hok (by simp)
        · simp only [hfd] at hok
          by_cases hneg : fd < 0
          · rw [if_pos hneg] at hok
            exact absurd hok (by simp)
          · rw [if_neg hneg, writeAt_append,
              show P ++ (d.priv ++ Q.drop d.priv.length) =
                  (P ++ d.priv) ++ Q.drop d.priv.length from
                (List.append_assoc _ _ _).symm,
              show P.length + d.priv.length = (P ++ d.priv).length from
                (List.length_append _ _).symm] at hok
            have hsum2 : devPrivTotal rest = (Q.drop d.priv.length).length := by
              simp only [devPrivTotal, hgpu, List.map_cons, List.sum_cons] at hsum
              simp only [List.length_drop, devPrivTotal]
              omega
            obtain ⟨h1, h2, h3⟩ :=
              ih (bks ++ [⟨d.gpu_id, lookup d.gpu_id, fd, d.priv.length, P.length⟩])
                 (P ++ d.priv) (Q.drop d.priv.length) out hsum2 hok
            refine ⟨?_, ?_, ?_⟩
            · rw [h1, hgpu]
              simp [regionsFrom, List.append_assoc]
            · rw [h2, hgpu]
              simp
            · intro b hb
              rcases h3 b hb with hmem | hne
              · rcases List.mem_append.mp hmem with hm | hm
                · exact Or.inl hm
                · right
                  have : b = ⟨d.gpu_id, lookup d.gpu_id, fd, d.priv.length, P.length⟩ := by
                    simpa using hm
                  rw [this]
                  exact hg
              · exact Or.inr hne

theorem restore_queues_go_spec (lookup : Nat → Nat) :
    ∀ (qs : List QueueRecord) (bks : List QueueBucketOut) (P Q : List Nat)
      (out : List QueueBucketOut × List Nat),
      queuePrivTotal qs = Q.length →
      restore_queues_go lookup qs bks (P ++ Q) P.length = .ok out →
      out.1.map (fun b => (b.priv_data_offset, b.priv_data_size)) =
        bks.map (fun b => (b.priv_data_offset, b.priv_data_size)) ++
          regionsFrom P.length (qs.map fun q => q.priv.length) ∧
      out.2 = P ++ (qs.map fun q => q.priv).flatten := by
  intro qs
  induction qs with
  | nil =>
    intro bks P Q out hsum hok
    simp only [restore_queues_go, Except.ok.injEq] at hok
    have hq : Q = [] := by
      have : Q.length = 0 := by simpa [queuePrivTotal] using hsum.symm
      exact List.length_eq_zero.mp this
    subst hq
    subst hok
    exact ⟨by simp [regionsFrom], by simp⟩
  | cons q rest ih =>
    intro bks P Q out hsum hok
    simp only [restore_queues_go] at hok
    by_cases hg : lookup q.gpu_id = 0
    · rw [if_pos hg] at hok
      exact absurd hok (by simp)
    · rw [if_neg hg, writeAt_append,
        show P ++ (q.priv ++ Q.drop q.priv.length) =
            (P ++ q.priv) ++ Q.drop q.priv.length from
          (List.append_assoc _ _ _).symm,
        show P.length + q.priv.length = (P ++ q.priv).length from
          (List.length_append _ _).symm] at hok
      have hsum2 : queuePrivTotal rest = (Q.drop q.priv.length).length := by
        simp only [queuePrivTotal, List.map_cons, List.sum_cons] at hsum
        simp only [List.length_drop, queuePrivTotal]
        omega
      obtain ⟨h1, h2⟩ :=
        ih (bks ++ [⟨lookup q.gpu_id, q.priv.length, P.length⟩])
           (P ++ q.priv) (Q.drop q.priv.length) out hsum2 hok
      constructor
      · rw [h1]
        simp [regionsFrom, List.append_assoc]
      · rw [h2]
        simp

theorem restore_events_go_spec (lookup : Nat → Nat) :
    ∀ (evs : List EventRecord) (bks : List EventBucketOut) (P Q : List Nat)
      (out : List EventBucketOut × List Nat),
      eventPrivTotal evs = Q.length →
      restore_events_go lookup evs bks (P ++ Q) P.length = .ok out →
      out.1.map (fun b => (b.priv_data_offset, b.priv_data_size)) =
        bks.map (fun b => (b.priv_data_offset, b.priv_data_size)) ++
          regionsFrom P.length (evs.map fun ev => ev.priv.length) ∧
      out.2 = P ++ (evs.map fun ev => ev.priv).flatten := by
  intro evs
  induction evs with
  | nil =>
    intro bks P Q out hsum hok
    simp only [restore_events_go, Except.ok.injEq] at hok
    have hq : Q = [] := by
      have : Q.length = 0 := by simpa [eventPrivTotal] using hsum.symm
      exact List.length_eq_zero.mp this
    subst hq
    subst hok
    exact ⟨by simp [regionsFrom], by simp⟩
  | cons ev rest ih =>
    intro bks P Q out hsum hok
    simp only [restore_events_go] at hok
    have hsum2 : eventPrivTotal rest = (Q.drop ev.priv.length).length := by
      simp only [eventPrivTotal, List.map_cons, List.sum_cons] at hsum
      simp only [List.length_drop, eventPrivTotal]
      omega
    have hrw : writeAt (P ++ Q) P.length ev.priv =
        (P ++ ev.priv) ++ Q.drop ev.priv.length := by
      rw [writeAt_append, List.append_assoc]
    by_cases hev : ev.gpu_id = 0
    · rw [if_neg (by simp [hev]), hrw,
        show P.length + ev.priv.length = (P ++ ev.priv).length from
          (List.length_append _ _).symm] at hok
      obtain ⟨h1, h2⟩ :=
        ih (bks ++ [⟨0, ev.priv.length, P.length⟩])
           (P ++ ev.priv) (Q.drop ev.priv.length) out hsum2 hok
      constructor
      · rw [h1]
        simp [regionsFrom, List.append_assoc]
      · rw [h2]
        simp
    · rw [if_pos hev] at hok
      by_cases hg : lookup ev.gpu_id = 0
      · rw [if_pos hg] at hok
        exact absurd hok (by simp)
      · rw [if_neg hg, hrw,
          show P.length + ev.priv.length = (P ++ ev.priv).length from
            (List.length_append _ _).symm] at hok
        obtain ⟨h1, h2⟩ :=
          ih (bks ++ [⟨lookup ev.gpu_id, ev.priv.length, P.length⟩])
             (P ++ ev.priv) (Q.drop ev.priv.length) out hsum2 hok
        constructor
        · rw [h1]
          simp [regionsFrom, List.append_assoc]
        · rw [h2]
          simp

/-! ## Claim theorems -/

/-- C1: decoding an encoded aggregate yields back exactly the Buffer records
that were encoded — in particular every record's `rawdata` bytes and its
`size`, `offset` and `alloc_flags` fields round-trip exactly — and encoding
is deterministic (in this functional model `encodeImage` is a function of the
aggregate alone, so encoding the same aggregate twice yields identical
bytes definitionally). -/
theorem c1_codec_roundtrip (es : List BoEntry) (h : wfImage es = true) :
    decodeImage (encodeImage es) = some es ∧ encodeImage es = encodeImage es := by
  refine ⟨?_, rfl⟩
  simp only [wfImage, Bool.and_eq_true, decide_eq_true_eq] at h
  unfold encodeImage decodeImage
  have hdec := decodeEntries_encode es [] h.2
  rw [List.append_nil] at hdec
  simp only [decodeU64_toLE8 _ h.1, hdec]

/-- Witness for C1 at a concrete one-record aggregate. -/
theorem c1_codec_roundtrip_witness :
    decodeImage (encodeImage [⟨1, 2, 3, 4, 5, [9, 8, 7], [6]⟩]) =
      some [⟨1, 2, 3, 4, 5, [9, 8, 7], [6]⟩] ∧
    encodeImage [⟨1, 2, 3, 4, 5, [9, 8, 7], [6]⟩] =
      encodeImage [⟨1, 2, 3, 4, 5, [9, 8, 7], [6]⟩] :=
  c1_codec_roundtrip [⟨1, 2, 3, 4, 5, [9, 8, 7], [6]⟩] (by decide)

/-- C5: for a buffer larger than the hardware's maximum single linear-copy
size, the SDMA path of `sdma_copy_bo` emits packets whose sizes are each
positive and at most the maximum, whose source/destination ranges are
consecutive (hence cover the buffer exactly) and pairwise non-overlapping,
whose sizes sum to exactly the buffer size, and whose last packet carries the
remainder; at least two packets are emitted. -/
theorem c5_sdma_chunking (family_id size : Nat)
    (hsize : max_copy_size family_id < size) :
    allSizesBounded (max_copy_size family_id)
        (buildCopyPackets (max_copy_size family_id) 0 size) = true ∧
    (packetSizes (buildCopyPackets (max_copy_size family_id) 0 size)).sum = size ∧
    consecutiveFromb 0 (buildCopyPackets (max_copy_size family_id) 0 size) = true ∧
    pairwiseDisjointb (buildCopyPackets (max_copy_size family_id) 0 size) = true ∧
    2 ≤ (buildCopyPackets (max_copy_size family_id) 0 size).length ∧
    (buildCopyPackets (max_copy_size family_id) 0 size).getLast?.map Prod.snd =
      some (if size % max_copy_size family_id = 0 then max_copy_size family_id
            else size % max_copy_size family_id) := by
  have hm : 0 < max_copy_size family_id := max_copy_size_pos family_id
  refine ⟨buildCopyPackets_bounded _ hm size 0,
          buildCopyPackets_sum _ hm size 0,
          buildCopyPackets_consecutive _ hm size 0,
          consecutiveFromb_disjoint _ 0 (buildCopyPackets_consecutive _ hm size 0),
          buildCopyPackets_length _ size 0 hm hsize,
          buildCopyPackets_last _ hm size 0 (by omega)⟩

/-- Witness for C5 at the concrete GPU family `AMDGPU_FAMILY_AI` (141) and a
buffer of `2^22 + 5` bytes (two full 2 MiB packets plus a 5-byte remainder). -/
theorem c5_sdma_chunking_witness :
    allSizesBounded (max_copy_size 141)
        (buildCopyPackets (max_copy_size 141) 0 4194309) = true ∧
    (packetSizes (buildCopyPackets (max_copy_size 141) 0 4194309)).sum = 4194309 ∧
    consecutiveFromb 0 (buildCopyPackets (max_copy_size 141) 0 4194309) = true ∧
    pairwiseDisjointb (buildCopyPackets (max_copy_size 141) 0 4194309) = true ∧
    2 ≤ (buildCopyPackets (max_copy_size 141) 0 4194309).length ∧
    (buildCopyPackets (max_copy_size 141) 0 4194309).getLast?.map Prod.snd =
      some (if 4194309 % max_copy_size 141 = 0 then max_copy_size 141
            else 4194309 % max_copy_size 141) :=
  c5_sdma_chunking 141 4194309 (by decide)

/-- C2 counterexample: with two spawned workers where the first one fails
(result `-5`), the join loop of `dump_bos`/`restore_bos` exits after joining
only one of the two workers, so the coordinator does not join all N workers
before returning the failure. -/
theorem c2_join_all_counterexample :
    ¬ ((bo_workers_join [-5, 0]).1 = ([(-5 : Int), 0]).length) := by decide

/-- C2 (amended): the coordinator joins the spawned workers in spawn order
and stops at the first failing worker: it returns that worker's result code
(0 when every worker succeeds), and the number of joined workers is
`min N (index of first failure + 1)` — all N workers are joined only when no
worker before the last one fails. -/
theorem c2_join_first_failure (rs : List Int) :
    (bo_workers_join rs).2 = rs.getD (leadingOk rs) 0 ∧
    (bo_workers_join rs).1 = min rs.length (leadingOk rs + 1) := by
  induction rs with
  | nil => simp [bo_workers_join, leadingOk]
  | cons r rs ih =>
    by_cases hr : r = 0
    · subst hr
      rw [bo_workers_join_cons_zero, leadingOk_cons_zero]
      refine ⟨by simpa using ih.1, ?_⟩
      simp only [List.length_cons]
      rw [ih.2]
      omega
    · rw [bo_workers_join_cons_ne r rs hr, leadingOk_cons_ne r rs hr]
      simp only [List.getD_cons_zero, List.length_cons]
      exact ⟨by simp, by omega⟩

/-- C3 counterexample: the claim fails at a VRAM buffer whose fence reports
not-expired while every teardown call succeeds.  First, the fence wait is
not bounded: the timeout passed is exactly `AMDGPU_TIMEOUT_INFINITE`.
Second, the accelerated path does not return failure there: the `-EBUSY`
set at line 888 is overwritten by the cleanup chain, `sdma_copy_bo` returns
0 (the status of the final `amdgpu_bo_free`) with the rawdata memcpy
skipped, and `dump_bo_contents` — whose only criterion is that zero
return — treats the buffer as drained by SDMA and never falls back. -/
theorem c3_fence_counterexample :
    ¬ (sdma_fence_wait_timeout < AMDGPU_TIMEOUT_INFINITE) ∧
    sdma_copy_bo_from_fence 0 0 ⟨0, 0, 0, 0, 0, 0⟩ = (0, false) ∧
    dump_bo_action 1 1 1 true = XferAction.sdmaOnly := by
  refine ⟨by decide, by decide, by decide⟩

/-- C3 (amended): the engine waits on the hardware fence with the infinite
timeout `AMDGPU_TIMEOUT_INFINITE` and never retries a not-expired fence — it
sets `-EBUSY` and jumps to the cleanup chain — but the cleanup labels
reassign the status with each teardown call's result, so `sdma_copy_bo`
returns the final `amdgpu_bo_free(h_bo_src)` status regardless of the fence
outcome, and the rawdata memcpy runs only when the fence expired.  The
engine falls back to the mmap strategy (host-visible buffers) or the
`/proc/<pid>/mem` strategy exactly when that returned status is nonzero —
not when the fence failed. -/
theorem c3_fence_status_clobbered :
    sdma_fence_wait_timeout = AMDGPU_TIMEOUT_INFINITE ∧
    sdma_fence_check 0 0 = -EBUSY ∧
    (∀ (queryErr : Int) (expired : Nat) (c : SdmaCleanupResults),
      (sdma_copy_bo_from_fence queryErr expired c).1 = c.srcBoFreeRet ∧
      (sdma_copy_bo_from_fence queryErr expired c).2 =
        (sdma_fence_check queryErr expired == 0)) ∧
    (∀ (g flags : Nat), flags.land KFD_IOC_ALLOC_MEM_FLAGS_VRAM ≠ 0 →
      dump_bo_action g g flags true = XferAction.sdmaOnly ∧
      restore_bo_action g g flags true = XferAction.sdmaOnly ∧
      dump_bo_action g g flags false =
        (if flags.land KFD_IOC_ALLOC_MEM_FLAGS_PUBLIC ≠ 0 then XferAction.mmapDirect
         else XferAction.procMemIndirect) ∧
      restore_bo_action g g flags false =
        (if flags.land KFD_IOC_ALLOC_MEM_FLAGS_PUBLIC ≠ 0 then XferAction.mmapDirect
         else XferAction.procMemIndirect)) := by
  refine ⟨rfl, by norm_num [sdma_fence_check], ?_, ?_⟩
  · intro queryErr expired c
    exact ⟨rfl, rfl⟩
  · intro g flags hv
    refine ⟨?_, ?_, ?_, ?_⟩
    · simp [dump_bo_action, hv]
    · simp [restore_bo_action, hv]
    · simp [dump_bo_action, hv]
    · simp [restore_bo_action, hv]

/-- Witness for C3 (amended): with a not-expired fence, one failing
intermediate teardown call and a succeeding final `amdgpu_bo_free`,
`sdma_copy_bo` still returns that final call's status (0); a VRAM-only
buffer (flags = 1) whose `sdma_copy_bo` returned 0 is kept as SDMA-drained,
and one whose return was nonzero falls back to `/proc/<pid>/mem`. -/
theorem c3_fence_status_clobbered_witness :
    (sdma_copy_bo_from_fence 0 0 ⟨0, 0, 0, 0, -7, 0⟩).1 =
      (⟨0, 0, 0, 0, -7, 0⟩ : SdmaCleanupResults).srcBoFreeRet ∧
    dump_bo_action 1 1 1 true = XferAction.sdmaOnly ∧
    dump_bo_action 1 1 1 false = XferAction.procMemIndirect := by
  refine ⟨(c3_fence_status_clobbered.2.2.1 0 0 ⟨0, 0, 0, 0, -7, 0⟩).1, ?_, ?_⟩
  · exact (c3_fence_status_clobbered.2.2.2 1 1 (by decide)).1
  · have h := (c3_fence_status_clobbered.2.2.2 1 1 (by decide)).2.2.1
    simpa using h

/-- C7: a buffer object whose allocation flags contain neither the VRAM flag
nor the GTT flag is skipped entirely by both the dump-direction and the
restore-direction worker: no transfer strategy reads or writes its recorded
rawdata contents. -/
theorem c7_ineligible_flags_skipped (tg bg flags : Nat) (s : Bool)
    (hv : flags.land KFD_IOC_ALLOC_MEM_FLAGS_VRAM = 0)
    (hg : flags.land KFD_IOC_ALLOC_MEM_FLAGS_GTT = 0) :
    rawdataTouched (dump_bo_action tg bg flags s) = false ∧
    rawdataTouched (restore_bo_action tg bg flags s) = false := by
  unfold dump_bo_action restore_bo_action
  by_cases h : bg = tg <;> simp [h, hv, hg, rawdataTouched]

/-- Witness for C7 at a doorbell-only buffer (flags = 8 =
`KFD_IOC_ALLOC_MEM_FLAGS_DOORBELL`). -/
theorem c7_ineligible_flags_witness :
    rawdataTouched (dump_bo_action 1 1 8 false) = false ∧
    rawdataTouched (restore_bo_action 1 1 8 false) = false :=
  c7_ineligible_flags_skipped 1 1 8 false (by decide) (by decide)

/-- C8: the restorer-args buffers built by all four per-category restore
routines — `restore_bos`, `restore_devices`, `restore_queues` and
`restore_events` — declare for every record a private-data length equal to
the number of bytes actually copied for it (the record's private-data
payload), and the `(offset, size)` regions of distinct records are
consecutive starting at offset 0, hence pairwise non-overlapping; the shared
private-data area ends up holding exactly the concatenation of the records'
payloads. -/
theorem c8_restorer_privdata_layout :
    (∀ (lookup : Nat → Nat) (es : List BoEntry) (bks : List RestoreBoBucket)
       (priv : List Nat),
      restore_bos_pack lookup es = .ok (bks, priv) →
      bks.map (fun b => (b.priv_data_offset, b.priv_data_size)) =
        regionsFrom 0 (es.map fun e => e.private_data.length) ∧
      bks.map (fun b => b.priv_data_size) = es.map (fun e => e.private_data.length) ∧
      consecutiveFromb 0 (bks.map fun b => (b.priv_data_offset, b.priv_data_size)) = true ∧
      pairwiseDisjointb (bks.map fun b => (b.priv_data_offset, b.priv_data_size)) = true ∧
      priv = (es.map fun e => e.private_data).flatten) ∧
    (∀ (lookup : Nat → Nat) (nodeFd : Nat → Option Int) (ds : List DevRecord)
       (bks : List DeviceBucket) (priv : List Nat),
      restore_devices_pack lookup nodeFd ds = .ok (bks, priv) →
      bks.map (fun b => (b.priv_data_offset, b.priv_data_size)) =
        regionsFrom 0 ((devGpuEntries ds).map fun d => d.priv.length) ∧
      bks.map (fun b => b.priv_data_size) =
        (devGpuEntries ds).map (fun d => d.priv.length) ∧
      consecutiveFromb 0 (bks.map fun b => (b.priv_data_offset, b.priv_data_size)) = true ∧
      pairwiseDisjointb (bks.map fun b => (b.priv_data_offset, b.priv_data_size)) = true ∧
      priv = ((devGpuEntries ds).map fun d => d.priv).flatten) ∧
    (∀ (lookup : Nat → Nat) (qs : List QueueRecord) (bks : List QueueBucketOut)
       (priv : List Nat),
      restore_queues_pack lookup qs = .ok (bks, priv) →
      bks.map (fun b => (b.priv_data_offset, b.priv_data_size)) =
        regionsFrom 0 (qs.map fun q => q.priv.length) ∧
      bks.map (fun b => b.priv_data_size) = qs.map (fun q => q.priv.length) ∧
      consecutiveFromb 0 (bks.map fun b => (b.priv_data_offset, b.priv_data_size)) = true ∧
      pairwiseDisjointb (bks.map fun b => (b.priv_data_offset, b.priv_data_size)) = true ∧
      priv = (qs.map fun q => q.priv).flatten) ∧
    (∀ (lookup : Nat → Nat) (evs : List EventRecord) (bks : List EventBucketOut)
       (priv : List Nat),
      restore_events_pack lookup evs = .ok (bks, priv) →
      bks.map (fun b => (b.priv_data_offset, b.priv_data_size)) =
        regionsFrom 0 (evs.map fun ev => ev.priv.length) ∧
      bks.map (fun b => b.priv_data_size) = evs.map (fun ev => ev.priv.length) ∧
      consecutiveFromb 0 (bks.map fun b => (b.priv_data_offset, b.priv_data_size)) = true ∧
      pairwiseDisjointb (bks.map fun b => (b.priv_data_offset, b.priv_data_size)) = true ∧
      priv = (evs.map fun ev => ev.priv).flatten) := by
  refine ⟨?_, ?_, ?_, ?_⟩
  · intro lookup es bks priv hok
    have hok2 : restore_bos_go lookup es []
        ([] ++ List.replicate (boPrivTotal es) 0) (List.length ([] : List Nat)) =
        .ok (bks, priv) := hok
    obtain ⟨h1, h2, _⟩ := restore_bos_go_spec lookup es [] []
      (List.replicate (boPrivTotal es) 0) (bks, priv) (by simp) hok2
    simp only [List.map_nil, List.nil_append, List.length_nil] at h1 h2
    have hcons : consecutiveFromb 0
        (bks.map fun b => (b.priv_data_offset, b.priv_data_size)) = true := by
      rw [h1]; exact regionsFrom_consecutive _ 0
    refine ⟨h1, ?_, hcons, consecutiveFromb_disjoint _ 0 hcons, h2⟩
    have hsz := congrArg (List.map Prod.snd) h1
    simpa [List.map_map, Function.comp, regionsFrom_map_snd] using hsz
  · intro lookup nodeFd ds bks priv hok
    have hok2 : restore_devices_go lookup nodeFd ds []
        ([] ++ List.replicate (devPrivTotal ds) 0) (List.length ([] : List Nat)) =
        .ok (bks, priv) := hok
    obtain ⟨h1, h2, _⟩ := restore_devices_go_spec lookup nodeFd ds []
      [] (List.replicate (devPrivTotal ds) 0) (bks, priv) (by simp) hok2
    simp only [List.map_nil, List.nil_append, List.length_nil] at h1 h2
    have hcons : consecutiveFromb 0
        (bks.map fun b => (b.priv_data_offset, b.priv_data_size)) = true := by
      rw [h1]; exact regionsFrom_consecutive _ 0
    refine ⟨h1, ?_, hcons, consecutiveFromb_disjoint _ 0 hcons, h2⟩
    have hsz := congrArg (List.map Prod.snd) h1
    simpa [List.map_map, Function.comp, regionsFrom_map_snd] using hsz

  · intro lookup qs bks priv hok
    have hok2 : restore_queues_go lookup qs []
        ([] ++ List.replicate (queuePrivTotal qs) 0) (List.length ([] : List Nat)) =
        .ok (bks, priv) := hok
    obtain ⟨h1, h2⟩ := restore_queues_go_spec lookup qs [] []
      (List.replicate (queuePrivTotal qs) 0) (bks, priv) (by simp) hok2
    simp only [List.map_nil, List.nil_append, List.length_nil] at h1 h2
    have hcons : consecutiveFromb 0
        (bks.map fun b => (b.priv_data_offset, b.priv_data_size)) = true := by
      rw [h1]; exact regionsFrom_consecutive _ 0
    refine ⟨h1, ?_, hcons, consecutiveFromb_disjoint _ 0 hcons, h2⟩
    have hsz := congrArg (List.map Prod.snd) h1
    simpa [List.map_map, Function.comp, regionsFrom_map_snd] using hsz
  · intro lookup evs bks priv hok
    have hok2 : restore_events_go lookup evs []
        ([] ++ List.replicate (eventPrivTotal evs) 0) (List.length ([] : List Nat)) =
        .ok (bks, priv) := hok
    obtain ⟨h1, h2⟩ := restore_events_go_spec lookup evs [] []
      (List.replicate (eventPrivTotal evs) 0) (bks, priv) (by simp) hok2
    simp only [List.map_nil, List.nil_append, List.length_nil] at h1 h2
    have hcons : consecutiveFromb 0
        (bks.map fun b => (b.priv_data_offset, b.priv_data_size)) = true := by
      rw [h1]; exact regionsFrom_consecutive _ 0
    refine ⟨h1, ?_, hcons, consecutiveFromb_disjoint _ 0 hcons, h2⟩
    have hsz := congrArg (List.map Prod.snd) h1
    simpa [List.map_map, Function.comp, regionsFrom_map_snd] using hsz

/-- Witness for C8, `restore_bos` direction: two BO entries with 2-byte and
1-byte private payloads under the identity restore map produce buckets at
offsets 0 and 2 with sizes 2 and 1 and the private area `[1, 2, 5]`. -/
theorem c8_restorer_privdata_layout_witness :
    ([⟨3, 10, 20, 30, 7, 2, 0⟩, ⟨4, 11, 21, 31, 7, 1, 2⟩] : List RestoreBoBucket).map
        (fun b => (b.priv_data_offset, b.priv_data_size)) =
      regionsFrom 0
        (([⟨3, 10, 20, 30, 7, [], [1, 2]⟩, ⟨4, 11, 21, 31, 7, [], [5]⟩] :
            List BoEntry).map fun e => e.private_data.length) ∧
    ([⟨3, 10, 20, 30, 7, 2, 0⟩, ⟨4, 11, 21, 31, 7, 1, 2⟩] : List RestoreBoBucket).map
        (fun b => b.priv_data_size) =
      ([⟨3, 10, 20, 30, 7, [], [1, 2]⟩, ⟨4, 11, 21, 31, 7, [], [5]⟩] :
          List BoEntry).map (fun e => e.private_data.length) ∧
    consecutiveFromb 0
      (([⟨3, 10, 20, 30, 7, 2, 0⟩, ⟨4, 11, 21, 31, 7, 1, 2⟩] : List RestoreBoBucket).map
        fun b => (b.priv_data_offset, b.priv_data_size)) = true ∧
    pairwiseDisjointb
      (([⟨3, 10, 20, 30, 7, 2, 0⟩, ⟨4, 11, 21, 31, 7, 1, 2⟩] : List RestoreBoBucket).map
        fun b => (b.priv_data_offset, b.priv_data_size)) = true ∧
    ([1, 2, 5] : List Nat) =
      (([⟨3, 10, 20, 30, 7, [], [1, 2]⟩, ⟨4, 11, 21, 31, 7, [], [5]⟩] :
          List BoEntry).map fun e => e.private_data).flatten :=
  c8_restorer_privdata_layout.1 (fun g => g)
    [⟨3, 10, 20, 30, 7, [], [1, 2]⟩, ⟨4, 11, 21, 31, 7, [], [5]⟩]
    [⟨3, 10, 20, 30, 7, 2, 0⟩, ⟨4, 11, 21, 31, 7, 1, 2⟩] [1, 2, 5] (by rfl)

/-- C6: at every modelled `maps_get_dest_gpu` call site (buffer, queue,
event, device and render-node records, in both the dump and the restore
direction — the dump-side device records going through
`topology_to_devinfo`), a lookup result of 0 makes the enclosing routine
abort with an error (`-ENODEV`, or `-EINVAL` in `topology_to_devinfo`)
instead of proceeding with id 0; routines that succeed never carry a zero id
into their output. -/
theorem c6_map_miss_aborts :
    (∀ (lookup : Nat → Nat) (b : DumpBoBucket), lookup b.gpu_id = 0 →
      dump_bos_records lookup [b] = .error (-ENODEV)) ∧
    (∀ (lookup : Nat → Nat) (bs : List DumpBoBucket) (es : List BoEntry),
      dump_bos_records lookup bs = .ok es → ∀ e ∈ es, e.gpu_id ≠ 0) ∧
    (∀ (lookup : Nat → Nat) (n : TpNode), n.gpu_id ≠ 0 → lookup n.gpu_id = 0 →
      topology_to_devinfo lookup [n] = .error (-EINVAL)) ∧
    (∀ (lookup : Nat → Nat) (ns : List TpNode) (out : List (Nat × Nat)),
      topology_to_devinfo lookup ns = .ok out →
      ∀ n ∈ ns, n.gpu_id ≠ 0 → lookup n.gpu_id ≠ 0) ∧
    (∀ (lookup : Nat → Nat) (e : BoEntry), lookup e.gpu_id = 0 →
      restore_bos_pack lookup [e] = .error (-ENODEV)) ∧
    (∀ (lookup : Nat → Nat) (nodeFd : Nat → Option Int) (d : DevRecord),
      d.gpu_id ≠ 0 → lookup d.gpu_id = 0 →
      restore_devices_pack lookup nodeFd [d] = .error (-ENODEV)) ∧
    (∀ (total : Nat) (lookup : Nat → Nat) (o : DumpOracle QueueRecord),
      total ≠ 0 → o.allocOk = true → o.ioctlRet = 0 →
      (∃ b ∈ o.buckets, lookup b.gpu_id = 0) →
      (dump_queues total lookup o).1 = -ENODEV) ∧
    (∀ (total : Nat) (lookup : Nat → Nat) (o : DumpOracle EventRecord),
      total ≠ 0 → o.allocOk = true → o.ioctlRet = 0 →
      (∃ b ∈ o.buckets, b.gpu_id ≠ 0 ∧ lookup b.gpu_id = 0) →
      (dump_events total lookup o).1 = -ENODEV) ∧
    (∀ (num : Nat) (qs : List QueueRecord) (lookup : Nat → Nat) (o : RestoreOracle),
      num ≠ 0 → o.allocOk = true → (∃ q ∈ qs, lookup q.gpu_id = 0) →
      restore_queues num qs lookup o = (-ENODEV, false)) ∧
    (∀ (num : Nat) (evs : List EventRecord) (lookup : Nat → Nat) (o : RestoreOracle),
      num ≠ 0 → o.allocOk = true →
      (∃ ev ∈ evs, ev.gpu_id ≠ 0 ∧ lookup ev.gpu_id = 0) →
      restore_events num evs lookup o = (-ENODEV, false)) ∧
    (∀ (lookup : Nat → Nat) (gid : Nat) (writeRet : Int), lookup gid = 0 →
      renderD_dump lookup (some gid) writeRet = -ENODEV) ∧
    (∀ (lookup : Nat → Nat) (gid : Nat) (findNode : Nat → Option Nat)
       (nodeFd : Nat → Int),
      lookup gid = 0 → renderD_restore lookup gid findNode nodeFd = -ENODEV) := by
  refine ⟨?_, ?_, ?_, ?_, ?_, ?_, ?_, ?_, ?_, ?_, ?_, ?_⟩
  · intro lookup b h
    simp [dump_bos_records, h]
  · intro lookup bs
    induction bs with
    | nil =>
      intro es hok e he
      simp only [dump_bos_records, Except.ok.injEq] at hok
      subst hok
      cases he
    | cons b rest ih =>
      intro es hok e he
      simp only [dump_bos_records] at hok
      by_cases hg : lookup b.gpu_id = 0
      · rw [if_pos hg] at hok
        exact absurd hok (by simp)
      · rw [if_neg hg] at hok
        rcases hrec : dump_bos_records lookup rest with c | es0
        · simp only [hrec] at hok
          exact absurd hok (by simp)
        · simp only [hrec, Except.ok.injEq] at hok
          subst hok
          rcases List.mem_cons.mp he with he0 | he0
          · rw [he0]
            exact hg
          · exact ih es0 hrec e he0
  · intro lookup n hn h
    simp [topology_to_devinfo, hn, h]
  · intro lookup ns
    induction ns with
    | nil =>
      intro out _ n hn
      cases hn
    | cons n rest ih =>
      intro out hok m hm hmg
      simp only [topology_to_devinfo] at hok
      by_cases hn : n.gpu_id = 0
      · rw [if_neg (by simp [hn])] at hok
        rcases hrec : topology_to_devinfo lookup rest with c | ds
        · simp only [hrec] at hok
          exact absurd hok (by simp)
        · simp only [hrec] at hok
          rcases List.mem_cons.mp hm with hm0 | hm0
          · rw [hm0] at hmg
            exact absurd hn hmg
          · exact ih ds hrec m hm0 hmg
      · rw [if_pos hn] at hok
        by_cases hg : lookup n.gpu_id = 0
        · rw [if_pos hg] at hok
          exact absurd hok (by simp)
        · rw [if_neg hg] at hok
          rcases hrec : topology_to_devinfo lookup rest with c | ds
          · simp only [hrec] at hok
            exact absurd hok (by simp)
          · simp only [hrec] at hok
            rcases List.mem_cons.mp hm with hm0 | hm0
            · rw [hm0]
              exact hg
            · exact ih ds hrec m hm0 hmg
  · intro lookup e h
    simp [restore_bos_pack, restore_bos_go, h]
  · intro lookup nodeFd d hd h
    simp [restore_devices_pack, restore_devices_go, hd, h]
  · intro total lookup o h0 ha hio hex
    obtain ⟨b, hb, hz⟩ := hex
    have hall : o.buckets.all (fun b => !(lookup b.gpu_id == 0)) = false := by
      refine Bool.eq_false_iff.mpr fun hforall => ?_
      have := List.all_eq_true.mp hforall b hb
      simp [hz] at this
    simp [dump_queues, h0, ha, hio, hall]
  · intro total lookup o h0 ha hio hex
    obtain ⟨b, hb, hbg, hz⟩ := hex
    have hall : o.buckets.all (fun b => b.gpu_id == 0 || !(lookup b.gpu_id == 0)) =
        false := by
      refine Bool.eq_false_iff.mpr fun hforall => ?_
      have := List.all_eq_true.mp hforall b hb
      simp [hz, hbg] at this
    simp [dump_events, h0, ha, hio, hall]
  · intro num qs lookup o h0 ha hex
    obtain ⟨q, hq, hz⟩ := hex
    have hall : qs.all (fun q => !(lookup q.gpu_id == 0)) = false := by
      refine Bool.eq_false_iff.mpr fun hforall => ?_
      have := List.all_eq_true.mp hforall q hq
      simp [hz] at this
    simp [restore_queues, h0, ha, hall]
  · intro num evs lookup o h0 ha hex
    obtain ⟨ev, hev, hevg, hz⟩ := hex
    have hall : evs.all (fun ev => ev.gpu_id == 0 || !(lookup ev.gpu_id == 0)) =
        false := by
      refine Bool.eq_false_iff.mpr fun hforall => ?_
      have := List.all_eq_true.mp hforall ev hev
      simp [hz, hevg] at this
    simp [restore_events, h0, ha, hall]
  · intro lookup gid writeRet h
    simp [renderD_dump, h]
  · intro lookup gid findNode nodeFd h
    simp [renderD_restore, h]

/-- Witness for C6 at a map that maps everything to 0: the BO record loop of
`dump_bos` aborts with `-ENODEV`, the device-entry conversion of
`dump_devices` (`topology_to_devinfo`) aborts with `-EINVAL`, and the
render-node restore branch aborts with `-ENODEV`. -/
theorem c6_map_miss_aborts_witness :
    dump_bos_records (fun _ => 0) [⟨5, 1, 2, 3, 4, []⟩] = .error (-ENODEV) ∧
    topology_to_devinfo (fun _ => 0) [⟨2, 9⟩] = .error (-EINVAL) ∧
    renderD_restore (fun _ => 0) 7 (fun _ => none) (fun _ => 0) = -ENODEV := by
  obtain ⟨h1, _, h3, _, _, _, _, _, _, _, _, h12⟩ := c6_map_miss_aborts
  exact ⟨h1 (fun _ => 0) ⟨5, 1, 2, 3, 4, []⟩ rfl,
         h3 (fun _ => 0) ⟨2, 9⟩ (by decide) rfl,
         h12 (fun _ => 0) 7 (fun _ => none) (fun _ => 0) rfl⟩

/-- C10: with zero queues (respectively zero events) reported, the queue and
event dump and restore routines return success immediately: no dumper or
restorer ioctl is issued and no queue or event entry is added to the image
aggregate. -/
theorem c10_zero_objects (lookup : Nat → Nat) (oq : DumpOracle QueueRecord)
    (oe : DumpOracle EventRecord) (ro : RestoreOracle)
    (qs : List QueueRecord) (evs : List EventRecord) :
    dump_queues 0 lookup oq = (0, false, 0) ∧
    dump_events 0 lookup oe = (0, false, 0) ∧
    restore_queues 0 qs lookup ro = (0, false) ∧
    restore_events 0 evs lookup ro = (0, false) := by
  refine ⟨?_, ?_, ?_, ?_⟩ <;> rfl

/-- C4 (code evaluation at the failing input): when `pause_process` succeeds
and the `AMDKFD_IOC_CRIU_PROCESS_INFO` ioctl then fails, the dump hook
returns `-1` directly: the cleanup tail is skipped, so the compute queues
are left paused, the render devices stay open, and no image is written —
contradicting the claim that every post-pause stage failure reaches the
unpause/close cleanup tail. -/
theorem c4_cleanup_skipped_on_process_info_failure :
    amdgpu_plugin_dump_file_kfd ⟨0, true, true, 0, 0, 0, 0, 0, 0, true, 0⟩ =
      ⟨-1, false, false, false⟩ := by
  rfl

/-! ## Helper lemmas about `getenv_bool` -/

theorem c_tolower_idem (c : Nat) : c_tolower (c_tolower c) = c_tolower c := by
  unfold c_tolower
  split_ifs <;> omega

theorem map_tolower_idem (s : List Nat) :
    (s.map c_tolower).map c_tolower = s.map c_tolower := by
  induction s with
  | nil => rfl
  | cons c rest ih => simp [c_tolower_idem, ih]

theorem strcaseeq_tolower (s t : List Nat) :
    strcaseeq (s.map c_tolower) t = strcaseeq s t := by
  unfold strcaseeq
  rw [map_tolower_idem]

theorem c_tolower_eq_low (c d : Nat) (hd : d < 65) : c_tolower c = d ↔ c = d := by
  unfold c_tolower
  split_ifs with h <;> omega

theorem map_tolower_eq_single (s : List Nat) (d : Nat) (hd : d < 65) :
    (s.map c_tolower == [d]) = (s == [d]) := by
  rw [Bool.eq_iff_iff]
  simp only [beq_iff_eq]
  rcases s with _ | ⟨c, rest⟩
  · simp
  rcases rest with _ | ⟨c2, rest2⟩
  · simpa using c_tolower_eq_low c d hd
  · simp

theorem getenv_bool_tolower (s : List Nat) (b : Bool) :
    getenv_bool (some (s.map c_tolower)) b = getenv_bool (some s) b := by
  simp only [getenv_bool]
  rw [map_tolower_eq_single s 48 (by omega), map_tolower_eq_single s 49 (by omega),
    strcaseeq_tolower, strcaseeq_tolower]

theorem list_map_tolower_yes (s : List Nat) (h : strcaseeq s [89, 69, 83] = true) :
    s.map c_tolower = [121, 101, 115] := by
  unfold strcaseeq at h
  have h2 : s.map c_tolower = [89, 69, 83].map c_tolower := beq_iff_eq.mp h
  rw [h2]
  decide

theorem getenv_bool_yes (s : List Nat) (b : Bool) (h : strcaseeq s [89, 69, 83] = true) :
    getenv_bool (some s) b = true := by
  have hm := list_map_tolower_yes s h
  have h48 : (s == [48]) = false := by
    cases hsb : (s == [48]) with
    | false => rfl
    | true =>
      have hs : s = [48] := beq_iff_eq.mp hsb
      rw [hs] at hm
      simp [c_tolower] at hm
  have hNO : strcaseeq s [78, 79] = false := by
    cases hsb : strcaseeq s [78, 79] with
    | false => rfl
    | true =>
      unfold strcaseeq at hsb
      have hs : s.map c_tolower = [78, 79].map c_tolower := beq_iff_eq.mp hsb
      rw [hm] at hs
      simp [c_tolower] at hs
  simp [getenv_bool, h48, hNO, h]

theorem getenv_bool_no (s : List Nat) (b : Bool) (h : strcaseeq s [78, 79] = true) :
    getenv_bool (some s) b = false := by
  simp [getenv_bool, h]

/-- C9: at restore-stage initialization all six topology-matcher
compatibility toggles default to enabled (with no environment overrides they
are all `true`); `getenv_bool` accepts the enable/disable values
case-insensitively (any casing of YES enables, any casing of NO disables,
and lowering the value string never changes the parse), and an unrecognized
value leaves the toggle's prior value unchanged (after a warning). -/
theorem c9_topology_toggles :
    (∀ (env : KfdEnvVar → Option (List Nat)) (prior : KfdCheckToggles),
      (∀ v, env v = none) →
      amdgpu_plugin_init_toggles CR_PLUGIN_STAGE_RESTORE env prior =
        ⟨true, true, true, true, true, true⟩) ∧
    (∀ (s : List Nat) (b : Bool), strcaseeq s [89, 69, 83] = true →
      getenv_bool (some s) b = true) ∧
    (∀ (s : List Nat) (b : Bool), strcaseeq s [78, 79] = true →
      getenv_bool (some s) b = false) ∧
    (∀ (s : List Nat) (b : Bool),
      getenv_bool (some (s.map c_tolower)) b = getenv_bool (some s) b) ∧
    (∀ (s : List Nat) (b : Bool), recognizedBoolValue s = false →
      getenv_bool (some s) b = b) := by
  refine ⟨?_, getenv_bool_yes, getenv_bool_no, getenv_bool_tolower, ?_⟩
  · intro env prior h
    unfold amdgpu_plugin_init_toggles
    rw [if_pos rfl]
    simp [h, getenv_bool]
  · intro s b h
    simp only [recognizedBoolValue, Bool.or_eq_false_iff] at h
    obtain ⟨⟨⟨h1, h2⟩, h3⟩, h4⟩ := h
    simp [getenv_bool, h1, h2, h3, h4]

/-- Witness for C9: with no environment overrides every toggle initializes to
enabled; the value "yEs" (bytes 121, 69, 115) parses as enable; the
unrecognized value "x" (byte 120) leaves a `false` toggle unchanged. -/
theorem c9_topology_toggles_witness :
    amdgpu_plugin_init_toggles CR_PLUGIN_STAGE_RESTORE (fun _ => none)
        ⟨false, false, false, false, false, false⟩ =
      ⟨true, true, true, true, true, true⟩ ∧
    getenv_bool (some [121, 69, 115]) false = true ∧
    getenv_bool (some [120]) false = false :=
  ⟨c9_topology_toggles.1 (fun _ => none) ⟨false, false, false, false, false, false⟩
      (fun _ => rfl),
   c9_topology_toggles.2.1 [121, 69, 115] false (by decide),
   c9_topology_toggles.2.2.2.2 [120] false (by decide)⟩

end AmdGpuPlugin
